import Mathlib

/-!
Verification of the PDF-product-extraction pipeline against its specification.

This file contains a shallow embedding, in Lean 4, of the core algorithms of
the repository: the retry controller and error classifier (error-handler.ts),
the review-queue prioritizer (repository.ts), the sliding-window rate limiter
(ai-extractor.ts), the supplement-facts comparison engine
(comparison-engine.ts), the batch orchestrator counters (batch-processor.ts),
the Zod product-extraction schemas with their salvage parse
(json-validator.ts), and the multi-strategy JSON recovery cascade
(ai-extractor.ts / json-extractor.ts).

Modelling conventions:
* JavaScript numbers are modelled as exact rationals (`ℚ`); `NaN` produced by
  a division `0 / 0` is modelled as `Option.none`.
* JavaScript strings are Lean `String`s; `toLowerCase` is modelled by
  `Char.toLower` (exact on ASCII, which covers every marker and unit the
  source compares).
* Host-library functions that the repository merely calls (`JSON.parse`,
  `JSON5.parse`, the regex engine used for code-block matching and cleanup
  patterns) are universally quantified parameters of the embedding; every
  algorithm of the repository itself is translated concretely.
* `async`/`await` sequencing carries no concurrency relevant to the claims
  below; suspended waits are modelled by explicit time arithmetic.
-/

/-- JavaScript `String.prototype.includes`: `needle` occurs as a contiguous
substring of `hay` (used by the error classifier). -/
def listInfix (needle hay : List Char) : Bool :=
  match hay with
  | [] => needle.isEmpty
  | _ :: t => needle.isPrefixOf hay || listInfix needle t

/-- JavaScript `hay.includes(needle)` on strings. -/
def jsIncludes (hay needle : String) : Bool :=
  listInfix needle.toList hay.toList

/-- JavaScript `toLowerCase` (modelled character-wise with `Char.toLower`). -/
def jsToLower (s : String) : String :=
  String.mk (s.toList.map Char.toLower)

/-- Drop leading and trailing whitespace from a character list. -/
def trimChars (l : List Char) : List Char :=
  ((l.dropWhile Char.isWhitespace).reverse.dropWhile Char.isWhitespace).reverse

/-- JavaScript `trim()` (structural, so that proofs can evaluate it). -/
def jsTrim (s : String) : String :=
  String.mk (trimChars s.toList)

/-- JavaScript `startsWith`. -/
def jsStartsWith (s pre : String) : Bool :=
  pre.toList.isPrefixOf s.toList

/-- Replace every non-overlapping occurrence of `pattern` (non-empty) left
to right, as JavaScript `replace(/pattern/g, repl)` on a literal pattern;
fuelled by the input length, which suffices because every step consumes at
least one character. -/
def replaceAllGo (pattern repl : List Char) : ℕ → List Char → List Char
  | 0, l => l
  | _, [] => []
  | fuel + 1, c :: t =>
    if pattern.isPrefixOf (c :: t) then
      repl ++ replaceAllGo pattern repl fuel ((c :: t).drop pattern.length)
    else c :: replaceAllGo pattern repl fuel t

/-- JavaScript `s.replace(/pattern/g, repl)` for a literal non-empty
pattern. -/
def jsReplaceAll (s pattern repl : String) : String :=
  String.mk (replaceAllGo pattern.toList repl.toList s.toList.length s.toList)

/-- The literal character `U+007B`. -/
def braceOpen : Char := Char.ofNat 123

/-- The literal character `U+007D`. -/
def braceClose : Char := Char.ofNat 125

/-! ## Error handler (`src/processor/error-handler.ts`) -/

/-- Error taxonomy of `ErrorHandler.classifyError`. -/
inductive ErrorType where
  | RATE_LIMIT
  | TIMEOUT
  | NETWORK
  | INVALID_FILE
  | VALIDATION
  | API_ERROR
  | UNKNOWN
deriving DecidableEq, BEq, Repr

/-- `ErrorHandler.classifyError`: lower-case the message and test the marker
substrings class by class; the first matching class wins, otherwise UNKNOWN. -/
def classifyError (err : String) : ErrorType :=
  let m := jsToLower err
  if jsIncludes m "rate limit" || jsIncludes m "429" then ErrorType.RATE_LIMIT
  else if jsIncludes m "timeout" || jsIncludes m "timed out" then ErrorType.TIMEOUT
  else if jsIncludes m "network" || jsIncludes m "econnrefused" || jsIncludes m "enotfound" then
    ErrorType.NETWORK
  else if jsIncludes m "invalid pdf" || jsIncludes m "corrupt" || jsIncludes m "malformed" then
    ErrorType.INVALID_FILE
  else if jsIncludes m "validation" || jsIncludes m "parse" then ErrorType.VALIDATION
  else if jsIncludes m "api" || jsIncludes m "401" || jsIncludes m "403" then ErrorType.API_ERROR
  else ErrorType.UNKNOWN

/-- `ErrorHandler.isRetryable`: exactly RATE_LIMIT, TIMEOUT, NETWORK and
API_ERROR are considered retryable. -/
def isRetryable (err : String) : Bool :=
  [ErrorType.RATE_LIMIT, ErrorType.TIMEOUT, ErrorType.NETWORK,
    ErrorType.API_ERROR].contains (classifyError err)

/-- `ErrorHandler.calculateDelay`: exponential backoff capped at `maxDelay`
plus a jitter drawn from `[0, 1000)` (passed in explicitly here). -/
def calculateDelay (baseDelay maxDelay multiplier : ℚ) (attemptNumber : ℕ) (jitter : ℚ) : ℚ :=
  min (baseDelay * multiplier ^ attemptNumber) maxDelay + jitter

/-- `ErrorHandler.withRetry`. The wrapped operation is modelled as a function
from the attempt index to its outcome. The result is paired with the total
number of invocations of the operation. Faithful to the source, the catch
branch retries whenever `currentAttempt < maxRetries`, for every error. -/
def withRetry {α : Type} (fn : ℕ → Except String α) (maxRetries : ℕ)
    (currentAttempt : ℕ) : Except String α × ℕ :=
  match fn currentAttempt with
  | Except.ok v => (Except.ok v, 1)
  | Except.error e =>
    if h : maxRetries ≤ currentAttempt then (Except.error e, 1)
    else
      let r := withRetry fn maxRetries (currentAttempt + 1)
      (r.1, r.2 + 1)
termination_by maxRetries - currentAttempt
decreasing_by omega

/-! ## Severities, warnings and discrepancies -/

/-- Severity levels shared by validation warnings and comparison
discrepancies. -/
inductive Severity where
  | low
  | medium
  | high
deriving DecidableEq, BEq, Repr

/-- `ValidationWarning` from `ai-extractor.ts`. -/
structure ValidationWarning where
  fieldPath : String
  message : String
  severity : Severity
deriving DecidableEq, Repr

/-- The `type` discriminator of a comparison discrepancy. -/
inductive DiscrepancyType where
  | missing
  | different
  | extra
deriving DecidableEq, BEq, Repr

/-- `Discrepancy` from `comparison-engine.ts`. The `claudeValue` / `grokValue`
/ `description` diagnostic payloads are not modelled; no claim concerns
them. -/
structure Discrepancy where
  fieldPath : String
  dtype : DiscrepancyType
  severity : Severity
  confidenceScore : ℚ
deriving DecidableEq, Repr

/-! ## Review queue prioritizer (`src/database/repository.ts`) -/

/-- The row written (inserted or upserted) by
`ProductRepository.addToReviewQueue`. -/
structure ReviewQueueRow where
  totalDiscrepancies : ℕ
  highSeverityCount : ℕ
  mediumSeverityCount : ℕ
  reviewPriority : ℕ
deriving DecidableEq, Repr

/-- The pure computation inside `ProductRepository.addToReviewQueue`:
severity counts and the review priority written to `human_review_queue`. -/
def addToReviewQueueRow (discrepancies : List Discrepancy)
    (validationWarnings : Option (List ValidationWarning)) : ReviewQueueRow :=
  let comparisonHighCount := (discrepancies.filter (fun d => d.severity == Severity.high)).length
  let comparisonMediumCount :=
    (discrepancies.filter (fun d => d.severity == Severity.medium)).length
  let warnings := validationWarnings.getD []
  let validationHighCount := (warnings.filter (fun w => w.severity == Severity.high)).length
  let validationMediumCount := (warnings.filter (fun w => w.severity == Severity.medium)).length
  let totalHighCount := comparisonHighCount + validationHighCount
  let totalMediumCount := comparisonMediumCount + validationMediumCount
  let totalDiscrepancies := discrepancies.length + warnings.length
  let priority := validationHighCount * 3 + comparisonHighCount * 2 + totalMediumCount
  ⟨totalDiscrepancies, totalHighCount, totalMediumCount, priority⟩

/-! ## Rate limiter (`src/extractor/ai-extractor.ts`, class `RateLimiter`)

`acquire()` is modelled as a function of the recorded admission timestamps
and the current clock (milliseconds, `ℤ` like `Date.now()`). A recursive
re-attempt after a suspended wait resumes at `now + waitTime`. The `fuel`
argument bounds the recursion depth; `rateLimiterAcquire` supplies fuel that
provably always suffices. -/

/-- One acquire attempt: purge entries older than 60 s; if the retained count
reaches the ceiling, wait until the oldest retained entry leaves the window
(plus the 100 ms buffer) and re-attempt; otherwise record `now` and admit.
Returns the new timestamp list and the admission time, or `none` if the fuel
ran out. Mirroring JavaScript, when the retained list is empty the
`undefined` oldest entry makes `waitTime` NaN, `NaN > 0` is false, and the
caller is admitted. -/
def acquireGo (maxRequestsPerMinute : ℕ) : ℕ → List ℤ → ℤ → Option (List ℤ × ℤ)
  | 0, _, _ => none
  | fuel + 1, requestTimes, now =>
    let retained := requestTimes.filter (fun t => t > now - 60000)
    if retained.length ≥ maxRequestsPerMinute then
      match retained.head? with
      | some oldestRequest =>
        let waitTime := 60000 - (now - oldestRequest) + 100
        if waitTime > 0 then
          acquireGo maxRequestsPerMinute fuel retained (now + waitTime)
        else
          some (retained ++ [now], now)
      | none => some (retained ++ [now], now)
    else
      some (retained ++ [now], now)

/-- `RateLimiter.acquire`, entered with recorded timestamps `requestTimes`
at clock value `now`. -/
def rateLimiterAcquire (maxRequestsPerMinute : ℕ) (requestTimes : List ℤ) (now : ℤ) :
    Option (List ℤ × ℤ) :=
  acquireGo maxRequestsPerMinute (requestTimes.length + 1) requestTimes now

/-! ## Comparison engine data (`src/parser/json-validator.ts` types) -/

/-- `NutrientData` (inferred from `nutrientSchema`). `Option.none` stands for
both `null` and an absent key, a distinction no modelled code observes. -/
structure NutrientData where
  name : String
  amount : Option String
  dailyValuePercentAdult : Option String
  dailyValuePercentChildren : Option String
  dailyValuePercent : Option String
deriving DecidableEq, Repr

/-- `SupplementFactsData` (inferred from `supplementFactsSchema`). -/
structure SupplementFactsData where
  servings : String
  servingsPerContainer : String
  calories : Option String
  protein : Option String
  nutrients : List NutrientData
deriving DecidableEq, Repr

/-- `IngredientData` (inferred from `ingredientSchema`). -/
structure IngredientData where
  name : String
  isOrganic : Bool
deriving DecidableEq, Repr

/-- `ProductExtractionData` (inferred from `productExtractionSchema`). -/
structure ProductExtractionData where
  productName : String
  productSlogan : Option String
  productDescription : String
  subbrand : Option String
  supplementFacts : Option SupplementFactsData
  ingredients : List IngredientData
  directions : String
  caution : Option String
  dietaryAttributes : List String
  references : Option String
deriving DecidableEq, Repr

/-! ## Comparison engine (`src/verification/comparison-engine.ts`) -/

/-- JavaScript `value || null` on a `string | null | undefined` operand: the
empty string is falsy and collapses to `null`. -/
def jsOrNull (o : Option String) : Option String :=
  match o with
  | some s => if s.isEmpty then none else some s
  | none => none

/-- Collapse every maximal run of whitespace into one space
(JavaScript `replace(/\s+/g, ' ')`); `prevWs` says whether the previous
character belonged to a run already replaced. -/
def collapseWsGo (prevWs : Bool) : List Char → List Char
  | [] => []
  | c :: t =>
    if c.isWhitespace then
      if prevWs then collapseWsGo true t else ' ' :: collapseWsGo true t
    else c :: collapseWsGo false t

/-- Text normalization used by `compareTextField`:
`toLowerCase().replace(/\s+/g, ' ').trim()`. -/
def compareNormalize (s : String) : String :=
  jsTrim (String.mk (collapseWsGo false (s.toList.map Char.toLower)))

/-- `ComparisonEngine.compareTextField`: equal values (or values equal after
normalization) produce no discrepancy, anything else one low-severity
`different` discrepancy. -/
def compareTextField (fieldPath : String) (value1 value2 : Option String) : List Discrepancy :=
  if value1 == value2 then []
  else
    let normalized1 := value1.map compareNormalize
    let normalized2 := value2.map compareNormalize
    if normalized1 == normalized2 then []
    else [⟨fieldPath, DiscrepancyType.different, Severity.low, 75⟩]

/-- JavaScript line terminators (which `.` in a regex never matches). -/
def isLineTerminator (c : Char) : Bool :=
  c = '\n' || c = '\r' || c = Char.ofNat 0x2028 || c = Char.ofNat 0x2029

/-- Scan for the first close-parenthesis, failing on a line terminator;
returns the remainder after the parenthesis. Implements the shortest match
of `.*?\)`. -/
def splitAtCloseParen : List Char → Option (List Char)
  | [] => none
  | c :: t =>
    if c = ')' then some t
    else if isLineTerminator c then none
    else splitAtCloseParen t

/-- Remove every match of `\(.*?\)` left to right (fuelled; the fuel is
always at least the input length, which suffices because every recursive
step consumes at least one character). -/
def stripParenFuel : ℕ → List Char → List Char
  | 0, l => l
  | _, [] => []
  | fuel + 1, c :: t =>
    if c = '(' then
      match splitAtCloseParen t with
      | some rest => stripParenFuel fuel rest
      | none => c :: stripParenFuel fuel t
    else c :: stripParenFuel fuel t

/-- JavaScript `replace(/\(.*?\)/g, '')`. -/
def stripParens (l : List Char) : List Char :=
  stripParenFuel l.length l

/-- `ComparisonEngine.normalizeNutrientName`: lower-case, drop parenthesised
content, drop every character outside `[a-z0-9]`, rewrite `vitamin` to
`vit`, trim. -/
def normalizeNutrientName (name : String) : String :=
  let lowered := name.toList.map Char.toLower
  let noParens := stripParens lowered
  let alnum := noParens.filter (fun c => ('a' ≤ c && c ≤ 'z') || ('0' ≤ c && c ≤ '9'))
  jsTrim (jsReplaceAll (String.mk alnum) "vitamin" "vit")

/-- A parsed nutrient amount: numeric value and unit token. -/
structure ParsedAmount where
  value : ℚ
  unit : String
deriving DecidableEq, Repr

/-- Numeric value of a digit list read in base 10. -/
def digitsToNat (l : List Char) : ℕ :=
  l.foldl (fun acc c => acc * 10 + (c.toNat - '0'.toNat)) 0

/-- Value of a fractional digit list (the part after the decimal point). -/
def fracValue (l : List Char) : ℚ :=
  (digitsToNat l : ℚ) / (10 ^ l.length : ℕ)

/-- Character class `[a-zA-Zα-ωµμ]` of the amount regex. -/
def isUnitChar (c : Char) : Bool :=
  ('a' ≤ c && c ≤ 'z') || ('A' ≤ c && c ≤ 'Z') ||
    (Char.ofNat 0x3B1 ≤ c && c ≤ Char.ofNat 0x3C9) || c = Char.ofNat 0xB5

/-- `ComparisonEngine.parseAmount`: match
`^<?(\d+(?:\.\d+)?)\s*([a-zA-Zα-ωµμ]+)` and return the numeric value with
the lower-cased unit, or `none` when the regex fails. -/
def parseAmount (amount : String) : Option ParsedAmount :=
  let l := amount.toList
  let l := match l with
    | '<' :: t => t
    | _ => l
  let intPart := l.takeWhile Char.isDigit
  let rest1 := l.dropWhile Char.isDigit
  if intPart.isEmpty then none
  else
    let valueRest : ℚ × List Char :=
      match rest1 with
      | '.' :: t =>
        let fracPart := t.takeWhile Char.isDigit
        if fracPart.isEmpty then ((digitsToNat intPart : ℚ), rest1)
        else ((digitsToNat intPart : ℚ) + fracValue fracPart, t.dropWhile Char.isDigit)
      | _ => ((digitsToNat intPart : ℚ), rest1)
    let unitChars := (valueRest.2.dropWhile Char.isWhitespace).takeWhile isUnitChar
    if unitChars.isEmpty then none
    else some ⟨valueRest.1, String.mk (unitChars.map Char.toLower)⟩

/-- Unit normalization of `ComparisonEngine.unitsEquivalent`: lower-case,
strip characters outside `[a-zα-ωµμ]`, then map the synonym table
(`mcg`/`μg`/`µg` all to `ug`; the remaining table entries are identities). -/
def unitsNormalize (u : String) : String :=
  let kept := (u.toList.map Char.toLower).filter (fun c =>
    ('a' ≤ c && c ≤ 'z') || (Char.ofNat 0x3B1 ≤ c && c ≤ Char.ofNat 0x3C9) ||
      c = Char.ofNat 0xB5)
  let s := String.mk kept
  if s = "mcg" then "ug"
  else if s = String.mk [Char.ofNat 0x3BC, 'g'] then "ug"
  else if s = String.mk [Char.ofNat 0xB5, 'g'] then "ug"
  else if s = "iu" then "iu"
  else if s = "mg" then "mg"
  else if s = "g" then "g"
  else if s = "l" then "l"
  else if s = "ml" then "ml"
  else s

/-- `ComparisonEngine.unitsEquivalent`. -/
def unitsEquivalent (unit1 unit2 : String) : Bool :=
  unitsNormalize unit1 == unitsNormalize unit2

/-- `ComparisonEngine.amountsMatch`: both `null` matches; one-sided `null`
fails; both sides must parse, units must be equivalent, and the values must
agree within 1 % of the first (reference) side's value. -/
def amountsMatch (amount1 amount2 : Option String) : Bool :=
  match amount1, amount2 with
  | none, none => true
  | none, some _ => false
  | some _, none => false
  | some a1, some a2 =>
    match parseAmount a1, parseAmount a2 with
    | some p1, some p2 =>
      if !unitsEquivalent p1.unit p2.unit then false
      else decide (|p1.value - p2.value| ≤ p1.value * (1 / 100))
    | _, _ => false

/-- JavaScript `parseFloat` restricted to strings of digits and dots (the
only shape reaching it in `percentagesMatch` after `replace(/[^0-9.]/g,'')`);
`none` models NaN. -/
def parseFloatDigitsDots (l : List Char) : Option ℚ :=
  let intPart := l.takeWhile Char.isDigit
  let rest := l.dropWhile Char.isDigit
  match rest with
  | '.' :: t =>
    let fracPart := t.takeWhile Char.isDigit
    if intPart.isEmpty && fracPart.isEmpty then none
    else some ((digitsToNat intPart : ℚ) + fracValue fracPart)
  | _ => if intPart.isEmpty then none else some (digitsToNat intPart : ℚ)

/-- `ComparisonEngine.percentagesMatch`: strip non-numeric characters, parse
both sides, accept within 1 absolute percentage point. -/
def percentagesMatch (percent1 percent2 : Option String) : Bool :=
  match percent1, percent2 with
  | none, none => true
  | none, some _ => false
  | some _, none => false
  | some p1, some p2 =>
    let num1 := parseFloatDigitsDots (p1.toList.filter (fun c => c.isDigit || c = '.'))
    let num2 := parseFloatDigitsDots (p2.toList.filter (fun c => c.isDigit || c = '.'))
    match num1, num2 with
    | some n1, some n2 => decide (|n1 - n2| ≤ 1)
    | _, _ => false

/-- Key-value pairs `(normalizeNutrientName(n.name), n)` in list order, the
argument of `new Map(...)`. -/
def nutrientPairs (l : List NutrientData) : List (String × NutrientData) :=
  l.map (fun n => (normalizeNutrientName n.name, n))

/-- JavaScript `Map.get` on a map built from `pairs`: the value of the last
pair carrying the key. -/
def mapGet (pairs : List (String × NutrientData)) (k : String) : Option NutrientData :=
  (pairs.reverse.find? (fun p => p.1 == k)).map Prod.snd

/-- Per-nutrient body of the first `forEach` of
`ComparisonEngine.compareNutrients`: missing counterpart, amount mismatch,
and the two daily-value mismatches. -/
def compareOneNutrient (grokPairs : List (String × NutrientData)) (index : ℕ)
    (claudeNutrient : NutrientData) : List Discrepancy :=
  match mapGet grokPairs (normalizeNutrientName claudeNutrient.name) with
  | none =>
    [⟨"supplementFacts.nutrients[" ++ toString index ++ "]",
      DiscrepancyType.missing, Severity.high, 50⟩]
  | some grokNutrient =>
    (if amountsMatch (jsOrNull claudeNutrient.amount) (jsOrNull grokNutrient.amount) then []
      else [⟨"supplementFacts.nutrients[" ++ toString index ++ "].amount",
        DiscrepancyType.different, Severity.high, 60⟩]) ++
    (if percentagesMatch (jsOrNull claudeNutrient.dailyValuePercentAdult)
        (jsOrNull grokNutrient.dailyValuePercentAdult) then []
      else [⟨"supplementFacts.nutrients[" ++ toString index ++ "].dailyValuePercentAdult",
        DiscrepancyType.different, Severity.medium, 70⟩]) ++
    (if percentagesMatch (jsOrNull claudeNutrient.dailyValuePercentChildren)
        (jsOrNull grokNutrient.dailyValuePercentChildren) then []
      else [⟨"supplementFacts.nutrients[" ++ toString index ++ "].dailyValuePercentChildren",
        DiscrepancyType.different, Severity.medium, 70⟩])

/-- `ComparisonEngine.compareNutrients`. -/
def compareNutrients (claudeNutrients grokNutrients : List NutrientData) : List Discrepancy :=
  let claudePairs := nutrientPairs claudeNutrients
  let grokPairs := nutrientPairs grokNutrients
  (claudeNutrients.enum.flatMap (fun p => compareOneNutrient grokPairs p.1 p.2)) ++
  (grokNutrients.enum.flatMap (fun p =>
    if (mapGet claudePairs (normalizeNutrientName p.2.name)).isSome then []
    else [⟨"supplementFacts.nutrients[grok-" ++ toString p.1 ++ "]",
      DiscrepancyType.extra, Severity.high, 50⟩]))

/-- `ComparisonEngine.countTotalFields`: 4 scalar fields plus 3 per
nutrient of the reference side. -/
def countTotalFields (data : SupplementFactsData) : ℕ :=
  4 + data.nutrients.length * 3

/-- JavaScript `Math.round` (half away from zero towards positive
infinity). -/
def jsRound (q : ℚ) : ℤ :=
  ⌊q + 1 / 2⌋

/-- Severity weight used by `calculateSimilarityScore`. -/
def severityWeight (s : Severity) : ℚ :=
  match s with
  | Severity.high => 1
  | Severity.medium => 1 / 2
  | Severity.low => 1 / 4

/-- `ComparisonEngine.calculateSimilarityScore` (the unused `grok` argument
of the source is dropped): clamp `100 - weighted/total*100` to `[0, 100]`
and round to one decimal place. -/
def calculateSimilarityScore (claude : SupplementFactsData)
    (discrepancies : List Discrepancy) : ℚ :=
  let totalFields := countTotalFields claude
  if totalFields = 0 then 100
  else
    let weightedDifferences :=
      discrepancies.foldl (fun sum d => sum + severityWeight d.severity) 0
    let score := max 0 (min 100 (100 - weightedDifferences / (totalFields : ℚ) * 100))
    (jsRound (score * 10) : ℚ) / 10

/-- Duplicate-free key list in first-insertion order (JavaScript `Map`
iteration order). -/
def dedupKeysGo (seen : List String) : List String → List String
  | [] => []
  | k :: t => if seen.contains k then dedupKeysGo seen t else k :: dedupKeysGo (k :: seen) t

/-- Entries of `new Map(pairs)` in iteration order: first-insertion key
order, each key bound to its last value. -/
def mapEntries (pairs : List (String × NutrientData)) : List (String × NutrientData) :=
  (dedupKeysGo [] (pairs.map Prod.fst)).filterMap (fun k => (mapGet pairs k).map (fun v => (k, v)))

/-- `ComparisonEngine.countMatchingFields`. -/
def countMatchingFields (claude grok : SupplementFactsData) : ℕ :=
  let basic :=
    (if (compareTextField "" (some claude.servings) (some grok.servings)).length = 0 then 1 else 0) +
    (if (compareTextField "" (some claude.servingsPerContainer)
        (some grok.servingsPerContainer)).length = 0 then 1 else 0) +
    (if (compareTextField "" (jsOrNull claude.calories) (jsOrNull grok.calories)).length = 0
      then 1 else 0) +
    (if (compareTextField "" (jsOrNull claude.protein) (jsOrNull grok.protein)).length = 0
      then 1 else 0)
  let claudePairs := nutrientPairs claude.nutrients
  let grokPairs := nutrientPairs grok.nutrients
  (mapEntries claudePairs).foldl (fun matching kv =>
    match mapGet grokPairs kv.1 with
    | none => matching
    | some grokNutrient =>
      matching + 1 +
      (if amountsMatch (jsOrNull kv.2.amount) (jsOrNull grokNutrient.amount) then 1 else 0) +
      (if percentagesMatch (jsOrNull kv.2.dailyValuePercentAdult)
          (jsOrNull grokNutrient.dailyValuePercentAdult) then 1 else 0)) basic

/-- `ComparisonResult` from `comparison-engine.ts`. -/
structure ComparisonResult where
  hasDiscrepancies : Bool
  discrepancies : List Discrepancy
  similarityScore : ℚ
  recommendsReview : Bool
  fieldTotal : ℕ
  fieldMatching : ℕ
  fieldDifferent : ℕ
  fieldMissing : ℕ
deriving DecidableEq, Repr

/-- `ComparisonEngine.compareSupplementFacts`. -/
def compareSupplementFacts (claude grok : SupplementFactsData) : ComparisonResult :=
  let discrepancies :=
    compareTextField "supplementFacts.servings" (some claude.servings) (some grok.servings) ++
    compareTextField "supplementFacts.servingsPerContainer" (some claude.servingsPerContainer)
      (some grok.servingsPerContainer) ++
    compareTextField "supplementFacts.calories" (jsOrNull claude.calories)
      (jsOrNull grok.calories) ++
    compareTextField "supplementFacts.protein" (jsOrNull claude.protein)
      (jsOrNull grok.protein) ++
    compareNutrients claude.nutrients grok.nutrients
  let similarityScore := calculateSimilarityScore claude discrepancies
  let highSeverityCount := (discrepancies.filter (fun d => d.severity == Severity.high)).length
  let mediumSeverityCount := (discrepancies.filter (fun d => d.severity == Severity.medium)).length
  let recommendsReview :=
    highSeverityCount > 0 || mediumSeverityCount > 2 || decide (similarityScore < 85)
  { hasDiscrepancies := !discrepancies.isEmpty
    discrepancies := discrepancies
    similarityScore := similarityScore
    recommendsReview := recommendsReview
    fieldTotal := countTotalFields claude
    fieldMatching := countMatchingFields claude grok
    fieldDifferent := (discrepancies.filter (fun d => d.dtype == DiscrepancyType.different)).length
    fieldMissing := (discrepancies.filter (fun d => d.dtype == DiscrepancyType.missing)).length }

/-! ## JavaScript values and the Zod schemas (`src/parser/json-validator.ts`) -/

/-- A JSON-like JavaScript value. -/
inductive JSValue where
  | null
  | bool (b : Bool)
  | num (q : ℚ)
  | str (s : String)
  | arr (elems : List JSValue)
  | obj (fields : List (String × JSValue))

/-- Property lookup on a plain object (objects have unique keys, so the
first binding is the binding). Arrays and primitives have none of the
looked-up properties. -/
def getField : JSValue → String → Option JSValue
  | JSValue.obj fields, k => (fields.find? (fun p => p.1 == k)).map Prod.snd
  | _, _ => none

/-- JavaScript `typeof v === 'object' && v !== null` (true for arrays). -/
def isObjectLike : JSValue → Bool
  | JSValue.obj _ => true
  | JSValue.arr _ => true
  | _ => false

/-- Test of the Zod regex `^<?[\d.]+\s*[a-zA-Z]+` ("Amount must include
number and unit"); the regex is unanchored on the right, so only a prefix
must match. -/
def amountRegexTest (s : String) : Bool :=
  let l := s.toList
  let l := match l with
    | '<' :: t => t
    | _ => l
  let numPart := l.takeWhile (fun c => c.isDigit || c = '.')
  let rest := (l.dropWhile (fun c => c.isDigit || c = '.')).dropWhile Char.isWhitespace
  !numPart.isEmpty &&
    (match rest with
    | c :: _ => ('a' ≤ c && c ≤ 'z') || ('A' ≤ c && c ≤ 'Z')
    | [] => false)

/-- Test of the Zod regex `^<?[\d.]+$` ("Daily value percent must be
numeric"). -/
def dvRegexTest (s : String) : Bool :=
  let l := s.toList
  let l := match l with
    | '<' :: t => t
    | _ => l
  !l.isEmpty && l.all (fun c => c.isDigit || c = '.')

/-- Zod `z.string().min(1)` on a required object property. -/
def zodReqString1 (v : JSValue) (k : String) : Option String :=
  match getField v k with
  | some (JSValue.str s) => if 1 ≤ s.length then some s else none
  | _ => none

/-- Zod `z.string().nullable().optional()`: an absent key and `null` both
parse to `none`; a string parses to itself; anything else fails. -/
def zodOptNullableString (v : JSValue) (k : String) : Option (Option String) :=
  match getField v k with
  | none => some none
  | some JSValue.null => some none
  | some (JSValue.str s) => some (some s)
  | some _ => none

/-- Zod `z.string().regex(..).nullable().optional()`. -/
def zodOptNullableRegexString (check : String → Bool) (v : JSValue) (k : String) :
    Option (Option String) :=
  match getField v k with
  | none => some none
  | some JSValue.null => some none
  | some (JSValue.str s) => if check s then some (some s) else none
  | some _ => none

/-- Parse every element of a list, failing if any element fails. -/
def parseJSList {β : Type} (f : JSValue → Option β) : List JSValue → Option (List β)
  | [] => some []
  | x :: t => do
    let b ← f x
    let r ← parseJSList f t
    pure (b :: r)

/-- Zod `z.array(schema).default([])` on an object property: an absent key
yields `[]`; a non-array (including `null`) fails. -/
def zodArrayDefault {β : Type} (f : JSValue → Option β) (v : JSValue) (k : String) :
    Option (List β) :=
  match getField v k with
  | none => some []
  | some (JSValue.arr l) => parseJSList f l
  | some _ => none

/-- `nutrientSchema.parse` (Zod objects reject non-objects, `null` and
arrays). -/
def parseNutrient (v : JSValue) : Option NutrientData :=
  match v with
  | JSValue.obj _ => do
    let name ← zodReqString1 v "name"
    let amount ← zodOptNullableRegexString amountRegexTest v "amount"
    let dvAdult ← zodOptNullableRegexString dvRegexTest v "dailyValuePercentAdult"
    let dvChildren ← zodOptNullableRegexString dvRegexTest v "dailyValuePercentChildren"
    let legacy ← zodOptNullableString v "dailyValuePercent"
    pure ⟨name, amount, dvAdult, dvChildren, legacy⟩
  | _ => none

/-- `supplementFactsSchema.parse`. -/
def parseSupplementFacts (v : JSValue) : Option SupplementFactsData :=
  match v with
  | JSValue.obj _ => do
    let servings ← zodReqString1 v "servings"
    let servingsPerContainer ← zodReqString1 v "servingsPerContainer"
    let calories ← zodOptNullableString v "calories"
    let protein ← zodOptNullableString v "protein"
    let nutrients ← zodArrayDefault parseNutrient v "nutrients"
    pure ⟨servings, servingsPerContainer, calories, protein, nutrients⟩
  | _ => none

/-- `ingredientSchema.parse` (`isOrganic` is `z.boolean().default(false)`). -/
def parseIngredient (v : JSValue) : Option IngredientData :=
  match v with
  | JSValue.obj _ => do
    let name ← zodReqString1 v "name"
    let isOrganic ←
      match getField v "isOrganic" with
      | none => some false
      | some (JSValue.bool b) => some b
      | some _ => none
    pure ⟨name, isOrganic⟩
  | _ => none

/-- Element schema `z.string()` of `dietaryAttributes`. -/
def zodStringElem (v : JSValue) : Option String :=
  match v with
  | JSValue.str s => some s
  | _ => none

/-- `productExtractionSchema.parse`; `validateProductExtraction` succeeds
exactly when this returns `some`. -/
def parseProductExtraction (v : JSValue) : Option ProductExtractionData :=
  match v with
  | JSValue.obj _ => do
    let productName ← zodReqString1 v "productName"
    let productSlogan ← zodOptNullableString v "productSlogan"
    let productDescription ← zodReqString1 v "productDescription"
    let subbrand ← zodOptNullableString v "subbrand"
    let supplementFacts ←
      match getField v "supplementFacts" with
      | none => some none
      | some sf => (parseSupplementFacts sf).map some
    let ingredients ← zodArrayDefault parseIngredient v "ingredients"
    let directions ← zodReqString1 v "directions"
    let caution ← zodOptNullableString v "caution"
    let dietaryAttributes ← zodArrayDefault zodStringElem v "dietaryAttributes"
    let references ← zodOptNullableString v "references"
    pure ⟨productName, productSlogan, productDescription, subbrand, supplementFacts,
      ingredients, directions, caution, dietaryAttributes, references⟩
  | _ => none

/-- JavaScript `typeof x.k === 'string' ? x.k : dflt`. -/
def getStrOr (v : JSValue) (k : String) (dflt : String) : String :=
  match getField v k with
  | some (JSValue.str s) => s
  | _ => dflt

/-- JavaScript `typeof x.k === 'string' ? x.k : null`. -/
def getStrOpt (v : JSValue) (k : String) : Option String :=
  match getField v k with
  | some (JSValue.str s) => some s
  | _ => none

/-- The filter predicate of the nutrient salvage:
`typeof n === 'object' && n !== null && typeof n.name === 'string'`. -/
def nutrientSalvageable (n : JSValue) : Bool :=
  isObjectLike n &&
    (match getField n "name" with
    | some (JSValue.str _) => true
    | _ => false)

/-- The map step of the nutrient salvage: keep the string name, keep a
string amount (else `null`), map `dailyValuePercentAdult` with fallback to
the legacy `dailyValuePercent`, keep a string `dailyValuePercentChildren`. -/
def salvageNutrient (n : JSValue) : NutrientData :=
  { name := getStrOr n "name" ""
    amount := getStrOpt n "amount"
    dailyValuePercentAdult :=
      match getStrOpt n "dailyValuePercentAdult" with
      | some s => some s
      | none => getStrOpt n "dailyValuePercent"
    dailyValuePercentChildren := getStrOpt n "dailyValuePercentChildren"
    dailyValuePercent := none }

/-- `safeParseProductExtraction`: strict parse first; on failure, for a
non-null object build the salvage record, preserving the supplement-facts
substructure (sub-schema parse if it succeeds, otherwise per-field salvage
when a `nutrients` array is present). -/
def safeParseProductExtraction (v : JSValue) : Option ProductExtractionData :=
  match parseProductExtraction v with
  | some d => some d
  | none =>
    if isObjectLike v then
      let supplementFacts : Option SupplementFactsData :=
        match getField v "supplementFacts" with
        | some sf =>
          if isObjectLike sf then
            match parseSupplementFacts sf with
            | some parsed => some parsed
            | none =>
              match getField sf "nutrients" with
              | some (JSValue.arr ns) =>
                some { servings := getStrOr sf "servings" "1"
                       servingsPerContainer := getStrOr sf "servingsPerContainer" "1"
                       calories := getStrOpt sf "calories"
                       protein := getStrOpt sf "protein"
                       nutrients := (ns.filter nutrientSalvageable).map salvageNutrient }
              | _ => none
          else none
        | none => none
      some { productName := getStrOr v "productName" "Unknown"
             productSlogan := getStrOpt v "productSlogan"
             productDescription := getStrOr v "productDescription" "No description available"
             subbrand := getStrOpt v "subbrand"
             supplementFacts := supplementFacts
             ingredients := []
             directions := getStrOr v "directions" "No directions provided"
             caution := getStrOpt v "caution"
             dietaryAttributes := []
             references := getStrOpt v "references" }
    else none

/-- Outcome of the validation stage of `AIExtractor.extractProductInfo`
(lines after JSON recovery): whether the attempt is reported successful and
with which data. -/
structure StageOutcome where
  success : Bool
  data : Option ProductExtractionData
deriving DecidableEq

/-- The validation/salvage decision of `AIExtractor.extractProductInfo`:
strict validation success returns the normalized data; on failure a
non-null salvage result is still reported as success (with warnings
attached in the source); only a null salvage is a failure.
`normalizeProductData` (whitespace collapsing, sentinel-value removal,
bounded free text) is quantified over rather than embedded: no claim
depends on its content. -/
def validationStage (normalize : ProductExtractionData → ProductExtractionData)
    (jsonData : JSValue) : StageOutcome :=
  match parseProductExtraction jsonData with
  | some d => ⟨true, some (normalize d)⟩
  | none =>
    match safeParseProductExtraction jsonData with
    | some d => ⟨true, some (normalize d)⟩
    | none => ⟨false, none⟩

/-! ## Batch orchestrator (`src/processor/batch-processor.ts`)

`processAll` is modelled over: the scanned metadata list, the
`isProductProcessed` predicate of the repository, the boolean outcome of
`processSinglePDF` per item (it always settles: internal errors are caught
and reported as `false`), and the shutdown flag sampled at the start of each
concurrency window (indexed by the window's start offset). Timing fields
are not modelled. -/

/-- `ProcessingResult`. `successRate` is `none` when the JavaScript
computation produces NaN (`0 / 0`). -/
structure ProcessingResult where
  totalProcessed : ℕ
  successCount : ℕ
  failureCount : ℕ
  skippedCount : ℕ
  successRate : Option ℚ
deriving DecidableEq, Repr

/-- JavaScript `(s / (s + f)) * 100` with NaN (the `0 / 0` case) as
`none`. -/
def jsPercent (s f : ℕ) : Option ℚ :=
  if s + f = 0 then none else some ((s : ℚ) / ((s : ℚ) + (f : ℚ)) * 100)

/-- The windowed processing loop of `processAll`: before each window the
shutdown flag is consulted (indexed by the window's start offset `i`); a set
flag stops scheduling. Each window takes `concurrency` items, counts
fulfilled-true outcomes as successes and the rest as failures. The fuel is
one more than the remaining item count, which suffices whenever
`concurrency ≥ 1`. -/
def processWindowsGo {α : Type} (outcome : α → Bool) (shutdownAt : ℕ → Bool)
    (concurrency : ℕ) : ℕ → List α → ℕ → ℕ × ℕ
  | 0, _, _ => (0, 0)
  | _ + 1, [], _ => (0, 0)
  | fuel + 1, x :: t, i =>
    if shutdownAt i then (0, 0)
    else
      let batch := (x :: t).take concurrency
      let s := (batch.filter outcome).length
      let f := batch.length - s
      let rest := processWindowsGo outcome shutdownAt concurrency fuel
        ((x :: t).drop concurrency) (i + concurrency)
      (s + rest.1, f + rest.2)

/-- Success/failure counters of the `processAll` main loop. -/
def processWindows {α : Type} (outcome : α → Bool) (shutdownAt : ℕ → Bool)
    (concurrency : ℕ) (items : List α) : ℕ × ℕ :=
  processWindowsGo outcome shutdownAt concurrency (items.length + 1) items 0

/-- The filter-then-limit item selection of `processAll`: drop
already-processed items when `skipExisting`, then truncate to `limit` when a
positive limit is below the list length. -/
def eligibleItems {α : Type} (scanMetadata : List α) (isProcessed : α → Bool)
    (skipExisting : Bool) (limit : Option ℕ) : List α :=
  let pdfsToProcess :=
    if skipExisting then scanMetadata.filter (fun p => !isProcessed p) else scanMetadata
  match limit with
  | some lim =>
    if 0 < lim ∧ lim < pdfsToProcess.length then pdfsToProcess.take lim else pdfsToProcess
  | none => pdfsToProcess

/-- `BatchProcessor.processAll`. The three early-return paths of the source
are kept: no valid scanned files (`successRate = 0`), everything filtered
out as already processed (`successRate = 100`), and the windowed main loop
with `successRate = (success / (success + failure)) * 100`. -/
def processAll {α : Type} (scanMetadata : List α) (isProcessed outcome : α → Bool)
    (shutdownAt : ℕ → Bool) (concurrency : ℕ) (skipExisting : Bool)
    (limit : Option ℕ) : ProcessingResult :=
  if scanMetadata.length = 0 then ⟨0, 0, 0, 0, some 0⟩
  else
    let pdfsToProcess := eligibleItems scanMetadata isProcessed skipExisting limit
    let skippedCount :=
      scanMetadata.length -
        (if skipExisting then (scanMetadata.filter (fun p => !isProcessed p)).length
          else scanMetadata.length)
    if pdfsToProcess.length = 0 then ⟨0, 0, 0, skippedCount, some 100⟩
    else
      let counts := processWindows outcome shutdownAt concurrency pdfsToProcess
      ⟨counts.1 + counts.2, counts.1, counts.2, skippedCount, jsPercent counts.1 counts.2⟩

/-- `BatchProcessor.retryFailed`: failed items are re-driven one at a time
(no windowing, no shutdown check, no skip filter). -/
def retryFailed {α : Type} (failedProducts : List α) (outcome : α → Bool) : ProcessingResult :=
  if failedProducts.length = 0 then ⟨0, 0, 0, 0, some 0⟩
  else
    let s := (failedProducts.filter outcome).length
    let f := failedProducts.length - s
    ⟨s + f, s, f, 0, jsPercent s f⟩

/-! ## JSON recovery cascade (`AIExtractor.extractJSONWithValidator` and the
strategy helpers of `src/extractor/json-extractor.ts`)

The host JSON parsers and the two regex services the strategies call are
section parameters: `jsonParse` is `JSON.parse` (exception as `none`),
`json5Parse` is `JSON5.parse`, `matchJsonBlock` returns the first capture of
/```json\s*([\s\S]*?)```/, `matchGenericBlock` the first capture of
/```\s*([\s\S]*?)```/, and `cleanupApply` performs the six boilerplate
pattern replacements of `tryCleanupWithValidator`. Every algorithm of the
repository itself — brace scanning, substring extraction, the three textual
repairs — is translated concretely below. -/

/-- Index of the first occurrence of a character (JavaScript `indexOf`). -/
def jsIndexOfCharGo (c : Char) : List Char → ℕ → Option ℕ
  | [], _ => none
  | x :: t, i => if x = c then some i else jsIndexOfCharGo c t (i + 1)

/-- JavaScript `text.indexOf(c)` (with `-1` modelled as `none`). -/
def jsIndexOfChar (s : String) (c : Char) : Option ℕ :=
  jsIndexOfCharGo c s.toList 0

/-- JavaScript `text.substring(a, b)` for `a ≤ b`. -/
def jsSubstring (s : String) (a b : ℕ) : String :=
  String.mk ((s.toList.drop a).take (b - a))

/-- Loop body of `findBalancedJSON`: walk the characters tracking escape
state, string state and brace depth; report the index one past the brace
that closes the depth back to zero. -/
def findBalancedGo : List Char → ℕ → ℤ → Bool → Bool → Option ℕ
  | [], _, _, _, _ => none
  | c :: t, i, braceCount, inString, escaped =>
    if escaped then findBalancedGo t (i + 1) braceCount inString false
    else if c = '\\' then findBalancedGo t (i + 1) braceCount inString true
    else if c = '"' then findBalancedGo t (i + 1) braceCount (!inString) escaped
    else if inString then findBalancedGo t (i + 1) braceCount inString escaped
    else if c = braceOpen then findBalancedGo t (i + 1) (braceCount + 1) inString escaped
    else if c = braceClose then
      if braceCount - 1 = 0 then some (i + 1)
      else findBalancedGo t (i + 1) (braceCount - 1) inString escaped
    else findBalancedGo t (i + 1) braceCount inString escaped

/-- `findBalancedJSON(text, startIndex)` (`-1` modelled as `none`). -/
def findBalancedJSON (text : String) (startIndex : ℕ) : Option ℕ :=
  findBalancedGo (text.toList.drop startIndex) startIndex 0 false false

/-- `repairUnescapedNewlines`: replace literal newlines inside string
literals by the two-character sequence `\n`, skipping the CR of a CR-LF
pair. -/
def repairNewlinesGo : List Char → Bool → Bool → List Char
  | [], _, _ => []
  | c :: t, inString, escaped =>
    if escaped then c :: repairNewlinesGo t inString false
    else if c = '\\' then c :: repairNewlinesGo t inString true
    else if c = '"' then c :: repairNewlinesGo t (!inString) escaped
    else if inString && (c = '\n' || c = '\r') then
      if c = '\r' && (match t with
        | '\n' :: _ => true
        | _ => false) then
        repairNewlinesGo t inString escaped
      else '\\' :: 'n' :: repairNewlinesGo t inString escaped
    else c :: repairNewlinesGo t inString escaped

/-- `repairUnescapedNewlines` on a string. -/
def repairUnescapedNewlines (text : String) : String :=
  String.mk (repairNewlinesGo text.toList false false)

/-- `truncateLongStrings`: buffer each string literal's content (with escape
pairs re-materialized) and flush it at the closing quote, truncated to
1997 characters plus `...` when longer than 2000; an unterminated final
string is flushed with a synthesized closing quote. -/
def truncateGo : List Char → Bool → Bool → List Char → List Char
  | [], inString, _, cur =>
    if inString then
      if cur.length > 2000 then cur.take 1997 ++ ['.', '.', '.', '"']
      else cur ++ ['"']
    else []
  | c :: t, inString, escaped, cur =>
    if escaped then
      if inString then truncateGo t inString false (cur ++ ['\\', c])
      else '\\' :: c :: truncateGo t inString false cur
    else if c = '\\' then truncateGo t inString true cur
    else if c = '"' then
      if inString then
        (if cur.length > 2000 then cur.take 1997 ++ ['.', '.', '.'] else cur) ++
          '"' :: truncateGo t false false []
      else '"' :: truncateGo t true false []
    else if inString then truncateGo t inString escaped (cur ++ [c])
    else c :: truncateGo t inString escaped cur

/-- `truncateLongStrings` on a string. -/
def truncateLongStrings (text : String) : String :=
  String.mk (truncateGo text.toList false false [])

/-- `repairUnterminatedStrings`: inside a string literal, a bare comma,
closing brace or closing bracket closes the string with a synthesized quote;
a string still open at the end is closed. -/
def repairUntermGo : List Char → Bool → Bool → List Char
  | [], inString, _ => if inString then ['"'] else []
  | c :: t, inString, escaped =>
    if escaped then c :: repairUntermGo t inString false
    else if c = '\\' then c :: repairUntermGo t inString true
    else if c = '"' then c :: repairUntermGo t (!inString) escaped
    else if inString && (c = ',' || c = braceClose || c = ']') then
      '"' :: c :: repairUntermGo t false escaped
    else c :: repairUntermGo t inString escaped

/-- `repairUnterminatedStrings` on a string. -/
def repairUnterminatedStrings (text : String) : String :=
  String.mk (repairUntermGo text.toList false false)

section Cascade

variable (jsonParse : String → Option JSValue)
variable (json5Parse : String → Option JSValue)
variable (matchJsonBlock : String → Option String)
variable (matchGenericBlock : String → Option String)
variable (cleanupApply : String → String)

/-- `AIExtractor.tryDirectParseWithValidator`: parse the trimmed text, gate
on the validator. -/
def tryDirectParseWithValidator (text : String) (validator : JSValue → Bool) : Option JSValue :=
  match jsonParse (jsTrim text) with
  | some data => if validator data then some data else none
  | none => none

/-- `AIExtractor.tryBalancedBracesWithValidator`: locate the first opening
brace, scan for its balanced closing brace, parse the substring, gate on the
validator. -/
def tryBalancedBracesWithValidator (text : String) (validator : JSValue → Bool) :
    Option JSValue :=
  match jsIndexOfChar text braceOpen with
  | none => none
  | some firstBrace =>
    match findBalancedJSON text firstBrace with
    | none => none
    | some endIndex =>
      match jsonParse (jsSubstring text firstBrace endIndex) with
      | some data => if validator data then some data else none
      | none => none

/-- `AIExtractor.tryCodeBlockWithValidator`: a ```json block first (a parse
exception there aborts the whole strategy), then a generic block whose
trimmed content starts with an opening brace. -/
def tryCodeBlockWithValidator (text : String) (validator : JSValue → Bool) : Option JSValue :=
  let generic : Option JSValue :=
    match matchGenericBlock text with
    | some captured =>
      let content := jsTrim captured
      if jsStartsWith content "\x7b" then
        match jsonParse content with
        | some data => if validator data then some data else none
        | none => none
      else none
    | none => none
  match matchJsonBlock text with
  | some captured =>
    match jsonParse (jsTrim captured) with
    | some data => if validator data then some data else generic
    | none => none
  | none => generic

/-- `AIExtractor.tryCleanupWithValidator`: strip the boilerplate patterns,
trim, then retry direct parse and balanced-brace extraction on the cleaned
text. -/
def tryCleanupWithValidator (text : String) (validator : JSValue → Bool) : Option JSValue :=
  let cleaned := jsTrim (cleanupApply text)
  match tryDirectParseWithValidator jsonParse cleaned validator with
  | some data => some data
  | none => tryBalancedBracesWithValidator jsonParse cleaned validator

/-- `repairCommonJSONErrors` of `json-extractor.ts`: balanced-brace
extraction followed by the three textual repairs, then a parse. -/
def repairCommonJSONErrors (text : String) : Option JSValue :=
  match jsIndexOfChar text braceOpen with
  | none => none
  | some firstBrace =>
    match findBalancedJSON text firstBrace with
    | none => none
    | some endIndex =>
      jsonParse
        (repairUnterminatedStrings
          (truncateLongStrings
            (repairUnescapedNewlines (jsSubstring text firstBrace endIndex))))

/-- `AIExtractor.tryRepairWithValidator`. -/
def tryRepairWithValidator (text : String) (validator : JSValue → Bool) : Option JSValue :=
  match repairCommonJSONErrors jsonParse text with
  | some data => if validator data then some data else none
  | none => none

/-- `tryJSON5Parse` of `json-extractor.ts`: prefer the balanced-brace
substring, falling back to the whole text when no balanced structure is
found. -/
def tryJSON5Parse (text : String) : Option JSValue :=
  match jsIndexOfChar text braceOpen with
  | none => none
  | some firstBrace =>
    match findBalancedJSON text firstBrace with
    | none => json5Parse text
    | some endIndex => json5Parse (jsSubstring text firstBrace endIndex)

/-- `AIExtractor.tryJSON5WithValidator`. -/
def tryJSON5WithValidator (text : String) (validator : JSValue → Bool) : Option JSValue :=
  match tryJSON5Parse json5Parse text with
  | some data => if validator data then some data else none
  | none => none

/-- The ordered strategy list of `AIExtractor.extractJSONWithValidator`,
with each strategy's name and result. -/
def cascadeStrategies (text : String) (validator : JSValue → Bool) :
    List (String × Option JSValue) :=
  [("directParse", tryDirectParseWithValidator jsonParse text validator),
   ("balancedBraces", tryBalancedBracesWithValidator jsonParse text validator),
   ("codeBlock", tryCodeBlockWithValidator jsonParse matchJsonBlock matchGenericBlock
      text validator),
   ("cleanup", tryCleanupWithValidator jsonParse cleanupApply text validator),
   ("repair", tryRepairWithValidator jsonParse text validator),
   ("json5", tryJSON5WithValidator json5Parse text validator)]

/-- First successful strategy of an ordered strategy list, with its name. -/
def firstSuccess : List (String × Option JSValue) → Option (JSValue × String)
  | [] => none
  | (name, r) :: rest =>
    match r with
    | some data => some (data, name)
    | none => firstSuccess rest

/-- `AIExtractor.extractJSONWithValidator`: iterate the fixed strategy list,
returning the first success together with the strategy name, or `none` when
all six strategies fail. -/
def extractJSONWithValidator (text : String) (validator : JSValue → Bool) :
    Option (JSValue × String) :=
  firstSuccess (cascadeStrategies jsonParse json5Parse matchJsonBlock matchGenericBlock
    cleanupApply text validator)

end Cascade

/-! ## Self-comparability predicates (used to state the amended identity
claim for the comparison engine) -/

/-- An amount field compares equal to itself: it is absent / null / empty
(so both sides collapse to `null`), or it parses under `parseAmount`. -/
def amountSelfOk (o : Option String) : Bool :=
  match jsOrNull o with
  | none => true
  | some s => (parseAmount s).isSome

/-- A daily-value field compares equal to itself: absent / null / empty, or
its digit-and-dot residue parses to a number. -/
def percentSelfOk (o : Option String) : Bool :=
  match jsOrNull o with
  | none => true
  | some s => (parseFloatDigitsDots (s.toList.filter (fun c => c.isDigit || c = '.'))).isSome

/-- All matcher-relevant fields of a nutrient compare equal to
themselves. -/
def nutrientSelfOk (n : NutrientData) : Bool :=
  amountSelfOk n.amount && percentSelfOk n.dailyValuePercentAdult &&
    percentSelfOk n.dailyValuePercentChildren

/-! ## Shared helper lemmas -/

/-- Folding severity weights over a list equals the initial value plus the
sum of the mapped weights. -/
theorem foldl_severityWeight (l : List Discrepancy) (init : ℚ) :
    l.foldl (fun sum d => sum + severityWeight d.severity) init =
      init + (l.map (fun d => severityWeight d.severity)).sum := by
  induction l generalizing init with
  | nil => simp
  | cons d t ih => simp [List.foldl_cons, ih, add_assoc]

/-- If the wrapped operation fails at every attempt, `withRetry` performs
`maxRetries - currentAttempt` retries after the first call and propagates
the last error. -/
theorem withRetry_all_errors {α : Type} (errs : ℕ → String) (fn : ℕ → Except String α)
    (h : ∀ i, fn i = Except.error (errs i)) :
    ∀ (n : ℕ) (M c : ℕ), M - c = n → c ≤ M →
      withRetry fn M c = (Except.error (errs M), n + 1) := by
  intro n
  induction n with
  | zero =>
    intro M c hn hc
    have hcM : c = M := by omega
    subst hcM
    rw [withRetry, h c]
    simp
  | succ k ih =>
    intro M c hn hc
    have hlt : c < M := by omega
    rw [withRetry, h c]
    simp only [dif_neg (by omega : ¬ M ≤ c)]
    have := ih M (c + 1) (by omega) (by omega)
    rw [this]

/-! ## Claim C9: review priority formula -/

/-- C9: the review priority written on upsert equals
`3 * (high validation warnings) + 2 * (high comparison discrepancies) +
(medium validation warnings + medium comparison discrepancies)`; in
particular one high validation warning alone gives priority 3, and two high
comparison discrepancies plus one medium give priority 5. -/
theorem C9_review_priority :
    (∀ (discrepancies : List Discrepancy) (warnings : List ValidationWarning),
      (addToReviewQueueRow discrepancies (some warnings)).reviewPriority =
        3 * (warnings.filter (fun w => w.severity == Severity.high)).length +
        2 * (discrepancies.filter (fun d => d.severity == Severity.high)).length +
        ((warnings.filter (fun w => w.severity == Severity.medium)).length +
          (discrepancies.filter (fun d => d.severity == Severity.medium)).length)) ∧
    (addToReviewQueueRow [] (some [⟨"supplementFacts.nutrients.0.amount", "invalid amount",
        Severity.high⟩])).reviewPriority = 3 ∧
    (addToReviewQueueRow
        [⟨"supplementFacts.nutrients[0].amount", DiscrepancyType.different, Severity.high, 60⟩,
         ⟨"supplementFacts.nutrients[1]", DiscrepancyType.missing, Severity.high, 50⟩]
        (some [⟨"supplementFacts.servings", "serving mismatch", Severity.medium⟩])).reviewPriority
      = 5 := by
  refine ⟨fun discrepancies warnings => ?_, by decide, by decide⟩
  simp only [addToReviewQueueRow, Option.getD]
  omega

/-! ## Claim C1: retry controller and error classification (corrected) -/

/-- C1 counterexample: "validation failed" classifies as VALIDATION, which
`isRetryable` deems non-retryable, yet `withRetry` (maxRetries = 3, the
default) invokes the failing operation four times — it schedules three
retries instead of propagating the error immediately. -/
theorem C1_counterexample :
    isRetryable "validation failed" = false ∧
    classifyError "validation failed" = ErrorType.VALIDATION ∧
    (withRetry (fun _ => (Except.error "validation failed" : Except String Unit)) 3 0).2 = 4 ∧
    (withRetry (fun _ => (Except.error "validation failed" : Except String Unit)) 3 0).1 =
      Except.error "validation failed" ∧
    (4 : ℕ) ≠ 1 := by
  have h := withRetry_all_errors (fun _ => "validation failed")
    (fun _ => (Except.error "validation failed" : Except String Unit)) (fun _ => rfl) 3 3 0
    rfl (by omega)
  refine ⟨by decide, by decide, ?_, ?_, by decide⟩
  · rw [h]
  · rw [h]

/-- C1 amended: `classifyError`/`isRetryable` mark exactly RATE_LIMIT,
TIMEOUT, NETWORK and API_ERROR as retryable, but `withRetry` never consults
the classification: a successful attempt returns at once, and every failure
— retryable or not — is retried while `currentAttempt < maxRetries`, the
final failure being propagated after `maxRetries` retries with the attempt
count reflected in the invocation total. -/
theorem C1_retry_amended :
    (∀ e, isRetryable e = true ↔
      classifyError e = ErrorType.RATE_LIMIT ∨ classifyError e = ErrorType.TIMEOUT ∨
      classifyError e = ErrorType.NETWORK ∨ classifyError e = ErrorType.API_ERROR) ∧
    (∀ (α : Type) (fn : ℕ → Except String α) (M c : ℕ) (v : α),
      fn c = Except.ok v → withRetry fn M c = (Except.ok v, 1)) ∧
    (∀ (α : Type) (fn : ℕ → Except String α) (M c : ℕ) (e : String),
      fn c = Except.error e → M ≤ c → withRetry fn M c = (Except.error e, 1)) ∧
    (∀ (α : Type) (fn : ℕ → Except String α) (M c : ℕ) (e : String),
      fn c = Except.error e → c < M →
      withRetry fn M c = ((withRetry fn M (c + 1)).1, (withRetry fn M (c + 1)).2 + 1)) ∧
    (∀ (α : Type) (errs : ℕ → String) (fn : ℕ → Except String α) (M : ℕ),
      (∀ i, fn i = Except.error (errs i)) →
      withRetry fn M 0 = (Except.error (errs M), M + 1)) := by
  refine ⟨?_, ?_, ?_, ?_, ?_⟩
  · intro e
    simp only [isRetryable]
    cases h : classifyError e <;> decide
  · intro α fn M c v h
    rw [withRetry, h]
  · intro α fn M c e h hMc
    rw [withRetry, h]
    simp [hMc]
  · intro α fn M c e h hcM
    rw [withRetry, h]
    simp only [dif_neg (by omega : ¬ M ≤ c)]
  · intro α errs fn M h
    have := withRetry_all_errors errs fn h M M 0 (by omega) (by omega)
    simpa using this

/-- C1 witness: instantiating the amended theorem at an always-failing
operation with maxRetries 2 yields three invocations and the propagated
error. -/
theorem C1_witness :
    withRetry (fun _ => (Except.error "corrupt file" : Except String Unit)) 2 0 =
      (Except.error "corrupt file", 3) ∧ isRetryable "corrupt file" = false := by
  constructor
  · exact C1_retry_amended.2.2.2.2 Unit (fun _ => "corrupt file")
      (fun _ => (Except.error "corrupt file" : Except String Unit)) 2 (fun _ => rfl)
  · have h := (C1_retry_amended.1 "corrupt file").not
    decide

/-! ## Claim C3: batch success rate (corrected) -/

/-- C3 counterexample: a `processAll` run in which the single scanned item
is already processed attempts nothing (`totalProcessed = 0`) yet returns
`successRate = 100`, not 0 as claimed. -/
theorem C3_counterexample :
    processAll [()] (fun _ => true) (fun _ => true) (fun _ => false) 1 true none =
      ⟨0, 0, 0, 1, some 100⟩ ∧
    (some (100 : ℚ) ≠ some (0 : ℚ)) := by
  constructor
  · rfl
  · decide

/-- C3 amended: whenever at least one item is attempted, `successRate`
equals `successCount / (successCount + failureCount) * 100` (for both
`processAll` and `retryFailed`). When nothing is attempted the value
depends on the path: 0 when the scan found no valid files (or when there
are no failed products to retry), 100 when every scanned item was filtered
out as already processed, and NaN (here `none`) when the shutdown flag
preempted the first window of a non-empty work list. -/
theorem C3_success_rate_amended :
    (∀ (α : Type) (scan : List α) (isP out : α → Bool) (sh : ℕ → Bool) (c : ℕ)
        (skip : Bool) (lim : Option ℕ),
      0 < (processAll scan isP out sh c skip lim).successCount +
          (processAll scan isP out sh c skip lim).failureCount →
      (processAll scan isP out sh c skip lim).successRate =
        some (((processAll scan isP out sh c skip lim).successCount : ℚ) /
          (((processAll scan isP out sh c skip lim).successCount : ℚ) +
            ((processAll scan isP out sh c skip lim).failureCount : ℚ)) * 100)) ∧
    (∀ (α : Type) (isP out : α → Bool) (sh : ℕ → Bool) (c : ℕ) (skip : Bool)
        (lim : Option ℕ),
      processAll ([] : List α) isP out sh c skip lim = ⟨0, 0, 0, 0, some 0⟩) ∧
    (∀ (α : Type) (scan : List α) (isP out : α → Bool) (sh : ℕ → Bool) (c : ℕ)
        (skip : Bool) (lim : Option ℕ), scan ≠ [] →
      eligibleItems scan isP skip lim = [] →
      (processAll scan isP out sh c skip lim).successRate = some 100 ∧
      (processAll scan isP out sh c skip lim).totalProcessed = 0) ∧
    (∀ (α : Type) (scan : List α) (isP out : α → Bool) (sh : ℕ → Bool) (c : ℕ)
        (skip : Bool) (lim : Option ℕ), scan ≠ [] →
      eligibleItems scan isP skip lim ≠ [] → sh 0 = true →
      (processAll scan isP out sh c skip lim).successRate = none) ∧
    (∀ (α : Type) (out : α → Bool),
      retryFailed ([] : List α) out = ⟨0, 0, 0, 0, some 0⟩) ∧
    (∀ (α : Type) (l : List α) (out : α → Bool), l ≠ [] →
      (retryFailed l out).totalProcessed = l.length ∧
      (retryFailed l out).successRate =
        some (((l.filter out).length : ℚ) / (l.length : ℚ) * 100)) := by
  have hfle : ∀ (α : Type) (l : List α) (p : α → Bool), (l.filter p).length ≤ l.length :=
    fun _ l p => l.length_filter_le p
  refine ⟨?_, ?_, ?_, ?_, ?_, ?_⟩
  · intro α scan isP out sh c skip lim hpos
    by_cases h0 : scan.length = 0
    · simp only [processAll, if_pos h0] at hpos ⊢
      omega
    · by_cases h1 : (eligibleItems scan isP skip lim).length = 0
      · simp only [processAll, if_neg h0, if_pos h1] at hpos ⊢
        omega
      · simp only [processAll, if_neg h0, if_neg h1] at hpos ⊢
        rw [jsPercent, if_neg (by omega)]
  · intro α isP out sh c skip lim
    rfl
  · intro α scan isP out sh c skip lim hne helig
    have h0 : ¬ scan.length = 0 := by
      simpa using List.length_pos.mpr hne |>.ne'
    have h1 : (eligibleItems scan isP skip lim).length = 0 := by
      simp [helig]
    constructor <;> simp [processAll, if_neg h0, if_pos h1]
  · intro α scan isP out sh c skip lim hne helig hsh
    have h0 : ¬ scan.length = 0 := by
      simpa using List.length_pos.mpr hne |>.ne'
    have h1 : ¬ (eligibleItems scan isP skip lim).length = 0 := by
      simpa using List.length_pos.mpr helig |>.ne'
    simp only [processAll, if_neg h0, if_neg h1]
    obtain ⟨x, t, hxt⟩ := List.exists_cons_of_ne_nil helig
    rw [hxt]
    simp [processWindows, processWindowsGo, hsh, jsPercent]
  · intro α out
    rfl
  · intro α l out hne
    have h0 : ¬ l.length = 0 := by
      simpa using List.length_pos.mpr hne |>.ne'
    have hle := hfle α l out
    constructor
    · simp only [retryFailed, if_neg h0]
      omega
    · simp only [retryFailed, if_neg h0]
      rw [jsPercent, if_neg (by omega)]
      congr 1
      have : ((l.filter out).length : ℚ) + ((l.length - (l.filter out).length : ℕ) : ℚ) =
          (l.length : ℚ) := by
        push_cast [Nat.cast_sub hle]
        ring
      rw [this]

/-- C3 witness: the amended theorem applied at concrete inputs — a shutdown
before the first window yields successRate NaN, and a retry pass over two
failed items that both succeed yields successRate 100. -/
theorem C3_witness :
    (processAll [()] (fun _ => false) (fun _ => true) (fun _ => true) 1 true none).successRate
      = none ∧
    (retryFailed [(), ()] (fun _ => true)).successRate = some 100 := by
  constructor
  · exact C3_success_rate_amended.2.2.2.1 Unit [()] (fun _ => false) (fun _ => true)
      (fun _ => true) 1 true none (by decide) (by decide) rfl
  · have h := (C3_success_rate_amended.2.2.2.2.2 Unit [(), ()] (fun _ => true) (by decide)).2
    rw [h]
    norm_num

/-! ## Claim C5: similarity score and review recommendation -/

/-- C5: `compare(a, b)` returns
`similarityScore = round1(clamp(100 - Σ weight(d) / totalFieldCount * 100))`
with weight 1 / 0.5 / 0.25 for high / medium / low severity and
`totalFieldCount = 4 + 3 * |a.nutrients|` (the reference side `a`), the
clamp to `[0, 100]` applied before rounding to one decimal place; and
`recommendsReview` holds exactly when a high-severity discrepancy exists,
more than two medium-severity discrepancies exist, or the score is below
85. -/
theorem C5_similarity_formula :
    ∀ (a b : SupplementFactsData),
      (compareSupplementFacts a b).similarityScore =
        (jsRound ((max 0 (min 100 (100 -
          (((compareSupplementFacts a b).discrepancies.map
            (fun d => severityWeight d.severity)).sum /
          ((4 + 3 * a.nutrients.length : ℕ) : ℚ)) * 100))) * 10) : ℚ) / 10 ∧
      ((compareSupplementFacts a b).recommendsReview = true ↔
        (0 < ((compareSupplementFacts a b).discrepancies.filter
            (fun d => d.severity == Severity.high)).length ∨
          2 < ((compareSupplementFacts a b).discrepancies.filter
            (fun d => d.severity == Severity.medium)).length ∨
          (compareSupplementFacts a b).similarityScore < 85)) := by
  intro a b
  constructor
  · simp only [compareSupplementFacts, calculateSimilarityScore, countTotalFields]
    rw [if_neg (by omega)]
    rw [foldl_severityWeight]
    have hcast : ((4 + a.nutrients.length * 3 : ℕ) : ℚ) =
        ((4 + 3 * a.nutrients.length : ℕ) : ℚ) := by
      push_cast
      ring
    rw [zero_add, hcast]
  · simp only [compareSupplementFacts, Bool.or_eq_true, decide_eq_true_eq]
    tauto

/-! ## Comparison-engine helper lemmas -/

/-- A text field compared with itself yields no discrepancy. -/
theorem compareTextField_self (fieldPath : String) (o : Option String) :
    compareTextField fieldPath o o = [] := by
  simp [compareTextField]

/-- Fractional digit values are non-negative. -/
theorem fracValue_nonneg (l : List Char) : 0 ≤ fracValue l := by
  unfold fracValue
  positivity

/-- A successfully parsed amount has a non-negative numeric value. -/
theorem parseAmount_value_nonneg {s : String} {p : ParsedAmount}
    (h : parseAmount s = some p) : 0 ≤ p.value := by
  simp only [parseAmount] at h
  split at h
  · exact absurd h (by simp)
  · split at h
    · exact absurd h (by simp)
    · rw [Option.some.injEq] at h
      subst h
      dsimp only
      split
      · split
        · exact Nat.cast_nonneg _
        · exact add_nonneg (Nat.cast_nonneg _) (fracValue_nonneg _)
      · exact Nat.cast_nonneg _

/-- An amount field that satisfies `amountSelfOk` matches itself. -/
theorem amountsMatch_self {o : Option String} (h : amountSelfOk o = true) :
    amountsMatch (jsOrNull o) (jsOrNull o) = true := by
  unfold amountSelfOk at h
  cases hj : jsOrNull o with
  | none => rfl
  | some s =>
    rw [hj] at h
    dsimp only at h
    obtain ⟨p, hp⟩ := Option.isSome_iff_exists.mp h
    simp only [amountsMatch, hp]
    have hu : unitsEquivalent p.unit p.unit = true := by
      simp [unitsEquivalent]
    rw [hu]
    have hv := parseAmount_value_nonneg hp
    simp only [Bool.not_true, Bool.false_eq_true, if_false, sub_self, abs_zero,
      decide_eq_true_eq]
    exact mul_nonneg hv (by norm_num)

/-- A daily-value field that satisfies `percentSelfOk` matches itself. -/
theorem percentagesMatch_self {o : Option String} (h : percentSelfOk o = true) :
    percentagesMatch (jsOrNull o) (jsOrNull o) = true := by
  unfold percentSelfOk at h
  unfold percentagesMatch
  cases hj : jsOrNull o with
  | none => rfl
  | some s =>
    rw [hj] at h
    dsimp only at h
    obtain ⟨q, hq⟩ := Option.isSome_iff_exists.mp h
    simp only [percentagesMatch, hq]
    simp

/-- Under pairwise-distinct normalized names, looking up a member nutrient's
normalized name in the map built from the list returns that nutrient. -/
theorem mapGet_nutrientPairs_self :
    ∀ (l : List NutrientData),
      (l.map (fun n => normalizeNutrientName n.name)).Nodup →
      ∀ {n : NutrientData}, n ∈ l →
        mapGet (nutrientPairs l) (normalizeNutrientName n.name) = some n := by
  intro l
  induction l with
  | nil => intro _ n hn; cases hn
  | cons m t ih =>
    intro hnd n hn
    rw [List.map_cons, List.nodup_cons] at hnd
    obtain ⟨hm, hnd'⟩ := hnd
    have hpairs : nutrientPairs (m :: t) =
        (normalizeNutrientName m.name, m) :: nutrientPairs t := rfl
    rcases List.mem_cons.mp hn with hEq | hnt
    · subst hEq
      unfold mapGet
      rw [hpairs, List.reverse_cons, List.find?_append]
      have hnone : (nutrientPairs t).reverse.find?
          (fun p => p.1 == normalizeNutrientName n.name) = none := by
        rw [List.find?_eq_none]
        intro x hx
        rw [List.mem_reverse] at hx
        obtain ⟨a, ha, rfl⟩ := List.mem_map.mp hx
        simp only [beq_eq_false_iff_ne, ne_eq, beq_iff_eq]
        intro hcontra
        exact hm (List.mem_map.mpr ⟨a, ha, hcontra⟩)
      rw [hnone]
      simp
    · have htail := ih hnd' hnt
      unfold mapGet at htail ⊢
      rw [hpairs, List.reverse_cons, List.find?_append]
      cases hfind : (nutrientPairs t).reverse.find?
          (fun p => p.1 == normalizeNutrientName n.name) with
      | none => rw [hfind] at htail; simp at htail
      | some pr =>
        rw [hfind] at htail
        simpa using htail

/-- A fuelled flatMap over an enumerated list whose body always yields `[]`
yields `[]`. -/
theorem enumFrom_flatMap_nil {α β : Type} (f : ℕ × α → List β) :
    ∀ (l : List α) (n : ℕ), (∀ i x, x ∈ l → f (i, x) = []) →
      ((l.enumFrom n).flatMap f) = [] := by
  intro l
  induction l with
  | nil => intro n _; rfl
  | cons x t ih =>
    intro n h
    have : (x :: t).enumFrom n = (n, x) :: t.enumFrom (n + 1) := rfl
    rw [this, List.flatMap_cons, h n x (List.mem_cons_self x t),
      ih (n + 1) (fun i y hy => h i y (List.mem_cons_of_mem x hy))]
    rfl

/-- Comparing a nutrient list against itself yields no discrepancies when
normalized names are pairwise distinct and every nutrient is
self-comparable. -/
theorem compareNutrients_self (l : List NutrientData)
    (hnd : (l.map (fun n => normalizeNutrientName n.name)).Nodup)
    (hok : ∀ n ∈ l, nutrientSelfOk n = true) :
    compareNutrients l l = [] := by
  simp only [compareNutrients]
  have h1 : ∀ i x, x ∈ l → compareOneNutrient (nutrientPairs l) i x = [] := by
    intro i x hx
    unfold compareOneNutrient
    rw [mapGet_nutrientPairs_self l hnd hx]
    have hok' := hok x hx
    unfold nutrientSelfOk at hok'
    simp only [Bool.and_eq_true] at hok'
    dsimp only
    rw [amountsMatch_self hok'.1.1, percentagesMatch_self hok'.1.2,
      percentagesMatch_self hok'.2]
    simp
  have h2 : ∀ (i : ℕ) (x : NutrientData), x ∈ l →
      (if (mapGet (nutrientPairs l) (normalizeNutrientName x.name)).isSome then
        ([] : List Discrepancy)
      else [⟨"supplementFacts.nutrients[grok-" ++ toString i ++ "]",
        DiscrepancyType.extra, Severity.high, 50⟩]) = [] := by
    intro i x hx
    rw [mapGet_nutrientPairs_self l hnd hx]
    rfl
  rw [show (l.enum = l.enumFrom 0) from rfl]
  rw [enumFrom_flatMap_nil _ l 0 (fun i x hx => h1 i x hx),
    enumFrom_flatMap_nil _ l 0 (fun i x hx => h2 i x hx)]
  rfl

/-- The similarity score of an empty discrepancy list is 100. -/
theorem calculateSimilarityScore_nil (claude : SupplementFactsData) :
    calculateSimilarityScore claude [] = 100 := by
  unfold calculateSimilarityScore countTotalFields
  rw [if_neg (by omega)]
  simp only [List.foldl_nil, zero_div, zero_mul, sub_zero, min_self]
  rw [max_eq_right (by norm_num : (0 : ℚ) ≤ 100)]
  unfold jsRound
  norm_num

/-- Projection lemma: the reported similarity score is the score of the
reported discrepancy list. -/
theorem compareSupplementFacts_similarity (claude grok : SupplementFactsData) :
    (compareSupplementFacts claude grok).similarityScore =
      calculateSimilarityScore claude ((compareSupplementFacts claude grok).discrepancies) := rfl

/-! ## Claim C6: identical structures compare as identical (corrected) -/

/-- C6 counterexample: a record with the schema-valid nutrient amount
`".5 mg"` (accepted by the Zod regex `^<?[\d.]+\s*[a-zA-Z]+`, rejected by
the engine's stricter `^<?(\d+(?:\.\d+)?)...` parse) compared against an
identical copy of itself reports a high-severity amount discrepancy, so
`hasDiscrepancies` is true and the discrepancy list is non-empty; the
similarity score is 85.7, not 100. -/
theorem C6_counterexample :
    parseNutrient (JSValue.obj [("name", JSValue.str "Sodium"),
        ("amount", JSValue.str ".5 mg")]) =
      some ⟨"Sodium", some ".5 mg", none, none, none⟩ ∧
    (compareSupplementFacts
        ⟨"1", "30", none, none, [⟨"Sodium", some ".5 mg", none, none, none⟩]⟩
        ⟨"1", "30", none, none, [⟨"Sodium", some ".5 mg", none, none, none⟩]⟩).hasDiscrepancies
      = true ∧
    (compareSupplementFacts
        ⟨"1", "30", none, none, [⟨"Sodium", some ".5 mg", none, none, none⟩]⟩
        ⟨"1", "30", none, none, [⟨"Sodium", some ".5 mg", none, none, none⟩]⟩).discrepancies
      = [⟨"supplementFacts.nutrients[0].amount", DiscrepancyType.different, Severity.high, 60⟩] ∧
    (compareSupplementFacts
        ⟨"1", "30", none, none, [⟨"Sodium", some ".5 mg", none, none, none⟩]⟩
        ⟨"1", "30", none, none, [⟨"Sodium", some ".5 mg", none, none, none⟩]⟩).similarityScore
      = 857 / 10 ∧
    (857 / 10 : ℚ) ≠ 100 := by
  refine ⟨by decide, by decide, by decide, ?_, by norm_num⟩
  rw [compareSupplementFacts_similarity]
  rw [show (compareSupplementFacts
      ⟨"1", "30", none, none, [⟨"Sodium", some ".5 mg", none, none, none⟩]⟩
      ⟨"1", "30", none, none, [⟨"Sodium", some ".5 mg", none, none, none⟩]⟩).discrepancies
    = [⟨"supplementFacts.nutrients[0].amount", DiscrepancyType.different, Severity.high, 60⟩]
    from by decide]
  unfold calculateSimilarityScore countTotalFields severityWeight
  rw [if_neg (by norm_num)]
  simp only [List.foldl_cons, List.foldl_nil, List.length_cons, List.length_nil]
  rw [show ((0 : ℚ) + 1) / ((4 + (0 + 1) * 3 : ℕ) : ℚ) * 100 = 100 / 7 by norm_num]
  rw [show (100 : ℚ) - 100 / 7 = 600 / 7 by norm_num]
  rw [min_eq_right (by norm_num : (600 / 7 : ℚ) ≤ 100)]
  rw [max_eq_right (by norm_num : (0 : ℚ) ≤ 600 / 7)]
  unfold jsRound
  norm_num

/-- C6 amended: an identical self-comparison yields no discrepancies,
similarity 100 and no review recommendation, provided the nutrients'
normalized names are pairwise distinct (otherwise the name-keyed map
collapses entries) and every nutrient's amount and daily-value fields are
either absent/empty or parseable by the engine's matchers (otherwise even
identical values fail to match). -/
theorem C6_identity_amended (x : SupplementFactsData)
    (hnd : (x.nutrients.map (fun n => normalizeNutrientName n.name)).Nodup)
    (hok : ∀ n ∈ x.nutrients, nutrientSelfOk n = true) :
    (compareSupplementFacts x x).discrepancies = [] ∧
    (compareSupplementFacts x x).similarityScore = 100 ∧
    (compareSupplementFacts x x).hasDiscrepancies = false ∧
    (compareSupplementFacts x x).recommendsReview = false := by
  have hD : (compareSupplementFacts x x).discrepancies = [] := by
    show compareTextField _ _ _ ++ compareTextField _ _ _ ++ compareTextField _ _ _ ++
      compareTextField _ _ _ ++ compareNutrients x.nutrients x.nutrients = []
    rw [compareTextField_self, compareTextField_self, compareTextField_self,
      compareTextField_self, compareNutrients_self x.nutrients hnd hok]
    rfl
  have hS : (compareSupplementFacts x x).similarityScore = 100 := by
    rw [compareSupplementFacts_similarity, hD, calculateSimilarityScore_nil]
  refine ⟨hD, hS, ?_, ?_⟩
  · show (!(compareSupplementFacts x x).discrepancies.isEmpty) = false
    rw [hD]
    rfl
  · have hrr : (compareSupplementFacts x x).recommendsReview =
        (((compareSupplementFacts x x).discrepancies.filter
            (fun d => d.severity == Severity.high)).length > 0 ||
          ((compareSupplementFacts x x).discrepancies.filter
            (fun d => d.severity == Severity.medium)).length > 2 ||
          decide ((compareSupplementFacts x x).similarityScore < 85)) := rfl
    rw [hrr, hD, hS]
    rw [decide_eq_false (by norm_num : ¬ ((100 : ℚ) < 85))]
    decide

/-- C6 witness: the amended theorem applied to a concrete record with one
well-formed nutrient. -/
theorem C6_witness :
    (compareSupplementFacts
        ⟨"1 capsule", "60", some "5", none, [⟨"Vitamin D", some "10 mcg", some "50", none, none⟩]⟩
        ⟨"1 capsule", "60", some "5", none,
          [⟨"Vitamin D", some "10 mcg", some "50", none, none⟩]⟩).similarityScore = 100 ∧
    (compareSupplementFacts
        ⟨"1 capsule", "60", some "5", none, [⟨"Vitamin D", some "10 mcg", some "50", none, none⟩]⟩
        ⟨"1 capsule", "60", some "5", none,
          [⟨"Vitamin D", some "10 mcg", some "50", none, none⟩]⟩).hasDiscrepancies = false := by
  have h := C6_identity_amended
    ⟨"1 capsule", "60", some "5", none, [⟨"Vitamin D", some "10 mcg", some "50", none, none⟩]⟩
    (by decide) (by decide)
  exact ⟨h.2.1, h.2.2.1⟩

/-! ## Claim C7: unit normalization and amount matching -/

/-- C7: `mcg`, `μg` and `µg` normalize into one micro-gram class and are
pairwise equivalent; `mg` is not in that class; whenever both sides parse
and the normalized units differ, the amounts never match regardless of
numeric closeness — in particular "100 mcg" vs "0.1 mg" yields exactly one
high-severity `different` discrepancy on the amount field; with equivalent
units, the amounts match exactly when the absolute difference is within 1 %
of the first (reference) side's value. -/
theorem C7_unit_classes :
    unitsEquivalent "mcg" "μg" = true ∧
    unitsEquivalent "mcg" "µg" = true ∧
    unitsEquivalent "μg" "µg" = true ∧
    unitsEquivalent "mg" "mcg" = false ∧
    unitsEquivalent "mg" "μg" = false ∧
    unitsEquivalent "mg" "µg" = false ∧
    (∀ (a1 a2 : String) (p1 p2 : ParsedAmount),
      parseAmount a1 = some p1 → parseAmount a2 = some p2 →
      unitsEquivalent p1.unit p2.unit = false →
      amountsMatch (some a1) (some a2) = false) ∧
    (∀ (a1 a2 : String) (p1 p2 : ParsedAmount),
      parseAmount a1 = some p1 → parseAmount a2 = some p2 →
      unitsEquivalent p1.unit p2.unit = true →
      (amountsMatch (some a1) (some a2) = true ↔
        |p1.value - p2.value| ≤ p1.value * (1 / 100))) ∧
    amountsMatch (some "100 mcg") (some "0.1 mg") = false ∧
    (compareSupplementFacts
        ⟨"1", "30", none, none, [⟨"Iron", some "100 mcg", none, none, none⟩]⟩
        ⟨"1", "30", none, none, [⟨"Iron", some "0.1 mg", none, none, none⟩]⟩).discrepancies
      = [⟨"supplementFacts.nutrients[0].amount", DiscrepancyType.different,
          Severity.high, 60⟩] := by
  refine ⟨by decide, by decide, by decide, by decide, by decide, by decide, ?_, ?_,
    by decide, by decide⟩
  · intro a1 a2 p1 p2 h1 h2 hu
    simp only [amountsMatch, h1, h2, hu]
    rfl
  · intro a1 a2 p1 p2 h1 h2 hu
    simp only [amountsMatch, h1, h2, hu, Bool.not_true, Bool.false_eq_true, if_false,
      decide_eq_true_eq]

/-- C7 witness: the unit-mismatch conjunct applied at "5 mg" vs "5 mcg"
(equal numeric values, inequivalent units). -/
theorem C7_witness :
    parseAmount "5 mg" = some ⟨5, "mg"⟩ ∧
    parseAmount "5 mcg" = some ⟨5, "mcg"⟩ ∧
    unitsEquivalent "mg" "mcg" = false ∧
    amountsMatch (some "5 mg") (some "5 mcg") = false := by
  refine ⟨by decide, by decide, by decide, ?_⟩
  exact C7_unit_classes.2.2.2.2.2.2.1 "5 mg" "5 mcg" ⟨5, "mg"⟩ ⟨5, "mcg"⟩
    (by decide) (by decide) (by decide)

/-! ## Rate-limiter helper lemmas -/

/-- Filtering strictly shortens a list containing an element that fails the
predicate. -/
theorem length_filter_lt {α : Type} (p : α → Bool) :
    ∀ (l : List α) (x : α), x ∈ l → p x = false → (l.filter p).length < l.length := by
  intro l
  induction l with
  | nil => intro x hx _; cases hx
  | cons a t ih =>
    intro x hx hpx
    rcases List.mem_cons.mp hx with rfl | hxt
    · have hle := List.length_filter_le p t
      simp [List.filter_cons, hpx]
      omega
    · have hlt := ih x hxt hpx
      by_cases hpa : p a = true <;>
        simp only [List.filter_cons, hpa, if_true, if_false, List.length_cons,
          Bool.false_eq_true] <;> omega

/-- Specification of a successful `acquireGo`: at the admission instant `T`
fewer than the ceiling of the entering timestamps lie in the rolling window
`(T - 60000, T]`, the new state is the retained window plus `T`, and time
only moved forward. -/
theorem acquireGo_spec (maxPM : ℕ) (hmax : 0 < maxPM) :
    ∀ (fuel : ℕ) (l : List ℤ) (now : ℤ) (nt : List ℤ) (T : ℤ),
      acquireGo maxPM fuel l now = some (nt, T) →
      (l.filter (fun t => t > T - 60000)).length < maxPM ∧
      nt = l.filter (fun t => t > T - 60000) ++ [T] ∧ now ≤ T := by
  intro fuel
  induction fuel with
  | zero =>
    intro l now nt T h
    exact absurd h (by simp [acquireGo])
  | succ k ih =>
    intro l now nt T h
    simp only [acquireGo] at h
    by_cases hc : (l.filter (fun t => t > now - 60000)).length ≥ maxPM
    · rw [if_pos hc] at h
      cases hh : (l.filter (fun t => t > now - 60000)).head? with
      | none =>
        rw [List.head?_eq_none_iff] at hh
        rw [hh] at hc
        simp at hc
        omega
      | some oldest =>
        rw [hh] at h
        dsimp only at h
        have hmem : oldest ∈ l.filter (fun t => t > now - 60000) :=
          List.mem_of_mem_head? (by rw [hh]; rfl)
        have hpred : oldest > now - 60000 := by
          simpa using List.of_mem_filter hmem
        have hwt : (60000 : ℤ) - (now - oldest) + 100 > 0 := by omega
        rw [if_pos hwt] at h
        obtain ⟨h1, h2, h3⟩ := ih _ _ _ _ h
        have hT : now ≤ T := by omega
        have hfilters : (l.filter (fun t => t > now - 60000)).filter
            (fun t => t > T - 60000) = l.filter (fun t => t > T - 60000) := by
          rw [List.filter_filter]
          apply List.filter_congr
          intro a _
          by_cases hpa : a > T - 60000
          · have hq : a > now - 60000 := by omega
            simp [hpa, hq]
          · simp [hpa]
        rw [hfilters] at h1 h2
        exact ⟨h1, h2, hT⟩
    · rw [if_neg hc] at h
      rw [Option.some.injEq, Prod.mk.injEq] at h
      obtain ⟨hnt, hT⟩ := h
      subst hT
      exact ⟨by omega, hnt.symm, le_refl now⟩

/-- With fuel exceeding the size of the retained window, `acquireGo` always
admits (it never fails, it only waits). -/
theorem acquireGo_total (maxPM : ℕ) :
    ∀ (fuel : ℕ) (l : List ℤ) (now : ℤ),
      (l.filter (fun t => t > now - 60000)).length < fuel →
      (acquireGo maxPM fuel l now).isSome = true := by
  intro fuel
  induction fuel with
  | zero =>
    intro l now h
    exact absurd h (Nat.not_lt_zero _)
  | succ k ih =>
    intro l now hlen
    simp only [acquireGo]
    by_cases hc : (l.filter (fun t => t > now - 60000)).length ≥ maxPM
    · rw [if_pos hc]
      cases hh : (l.filter (fun t => t > now - 60000)).head? with
      | none => simp
      | some oldest =>
        have hmem : oldest ∈ l.filter (fun t => t > now - 60000) :=
          List.mem_of_mem_head? (by rw [hh]; rfl)
        have hpred : oldest > now - 60000 := by
          simpa using List.of_mem_filter hmem
        have hwt : (60000 : ℤ) - (now - oldest) + 100 > 0 := by omega
        dsimp only
        rw [if_pos hwt]
        apply ih
        have hdrop : ((l.filter (fun t => t > now - 60000)).filter
            (fun t => t > now + (60000 - (now - oldest) + 100) - 60000)).length <
            (l.filter (fun t => t > now - 60000)).length := by
          apply length_filter_lt _ _ oldest hmem
          simp only [decide_eq_false_iff_not, not_lt]
          omega
        omega
    · rw [if_neg hc]
      simp

/-! ## Claim C8: rate limiter admission -/

/-- C8: with a positive per-minute ceiling, `acquire()` never rejects — it
always terminates in an admission (the model's fuel, one more than the
recorded-timestamp count, provably suffices); at the admission instant `T`
fewer than ceiling-many previously recorded timestamps lie in the rolling
window `(T - 60000, T]`, the retained window plus the new timestamp `T` is
recorded, and time never moves backwards; and when the retained count is at
or above the ceiling, the call suspends for exactly
`60000 - (now - oldest) + 100` milliseconds and then re-attempts
admission. -/
theorem C8_rate_limiter (maxPM : ℕ) (times : List ℤ) (now : ℤ) (hmax : 0 < maxPM) :
    (∃ nt T, rateLimiterAcquire maxPM times now = some (nt, T)) ∧
    (∀ (nt : List ℤ) (T : ℤ), rateLimiterAcquire maxPM times now = some (nt, T) →
      (times.filter (fun t => t > T - 60000)).length < maxPM ∧
      nt = times.filter (fun t => t > T - 60000) ++ [T] ∧ now ≤ T) ∧
    (∀ (fuel : ℕ) (oldest : ℤ),
      maxPM ≤ (times.filter (fun t => t > now - 60000)).length →
      (times.filter (fun t => t > now - 60000)).head? = some oldest →
      acquireGo maxPM (fuel + 1) times now =
        acquireGo maxPM fuel (times.filter (fun t => t > now - 60000))
          (now + (60000 - (now - oldest) + 100))) := by
  refine ⟨?_, ?_, ?_⟩
  · have htot := acquireGo_total maxPM (times.length + 1) times now
      (Nat.lt_succ_of_le (times.length_filter_le _))
    obtain ⟨⟨nt, T⟩, hp⟩ := Option.isSome_iff_exists.mp htot
    exact ⟨nt, T, hp⟩
  · intro nt T h
    exact acquireGo_spec maxPM hmax (times.length + 1) times now nt T h
  · intro fuel oldest hge hh
    have hmem : oldest ∈ times.filter (fun t => t > now - 60000) :=
      List.mem_of_mem_head? (by rw [hh]; rfl)
    have hpred : oldest > now - 60000 := by
      simpa using List.of_mem_filter hmem
    have hwt : (60000 : ℤ) - (now - oldest) + 100 > 0 := by omega
    conv_lhs => rw [acquireGo]
    rw [if_pos hge, hh]
    dsimp only
    rw [if_pos hwt]

/-- C8 witness: the theorem applied at ceiling 1, no recorded timestamps,
clock 0 — the caller is admitted at once with fewer than one timestamp in
the window. -/
theorem C8_witness :
    (∃ nt T, rateLimiterAcquire 1 [] 0 = some (nt, T)) ∧ (0 : ℕ) < 1 := by
  exact ⟨(C8_rate_limiter 1 [] 0 (by decide)).1, by decide⟩

/-! ## Salvage-parse helper lemma -/

/-- When a property is not a string, the string-or-default accessor yields
the default. -/
theorem getStrOr_of_getStrOpt_none {v : JSValue} {k d : String}
    (h : getStrOpt v k = none) : getStrOr v k d = d := by
  unfold getStrOpt at h
  unfold getStrOr
  cases hg : getField v k with
  | none => rfl
  | some w =>
    rw [hg] at h
    cases w with
    | str s => exact absurd h (by simp)
    | null => rfl
    | bool b => rfl
    | num q => rfl
    | arr l => rfl
    | obj fields => rfl

/-! ## Claim C10: salvage placeholders and discarded arrays -/

/-- C10: whenever the salvage path runs (strict parse failed on a non-null
object), the salvaged record always has `ingredients = []` and
`dietaryAttributes = []` — input arrays for those fields are discarded —
and every missing or non-string required scalar is replaced by its fixed
placeholder: "Unknown", "No description available", "No directions
provided". -/
theorem C10_salvage_placeholders (v : JSValue)
    (hparse : parseProductExtraction v = none) (hobj : isObjectLike v = true) :
    ∃ r, safeParseProductExtraction v = some r ∧
      r.ingredients = [] ∧ r.dietaryAttributes = [] ∧
      r.productName = getStrOr v "productName" "Unknown" ∧
      r.productDescription = getStrOr v "productDescription" "No description available" ∧
      r.directions = getStrOr v "directions" "No directions provided" ∧
      (getStrOpt v "productName" = none → r.productName = "Unknown") ∧
      (getStrOpt v "productDescription" = none →
        r.productDescription = "No description available") ∧
      (getStrOpt v "directions" = none → r.directions = "No directions provided") ∧
      (∀ l, getField v "ingredients" = some (JSValue.arr l) → r.ingredients = []) ∧
      (∀ l, getField v "dietaryAttributes" = some (JSValue.arr l) →
        r.dietaryAttributes = []) := by
  have hsafe : safeParseProductExtraction v = some
      { productName := getStrOr v "productName" "Unknown"
        productSlogan := getStrOpt v "productSlogan"
        productDescription := getStrOr v "productDescription" "No description available"
        subbrand := getStrOpt v "subbrand"
        supplementFacts :=
          match getField v "supplementFacts" with
          | some sf =>
            if isObjectLike sf then
              match parseSupplementFacts sf with
              | some parsed => some parsed
              | none =>
                match getField sf "nutrients" with
                | some (JSValue.arr ns) =>
                  some { servings := getStrOr sf "servings" "1"
                         servingsPerContainer := getStrOr sf "servingsPerContainer" "1"
                         calories := getStrOpt sf "calories"
                         protein := getStrOpt sf "protein"
                         nutrients := (ns.filter nutrientSalvageable).map salvageNutrient }
                | _ => none
            else none
          | none => none
        ingredients := []
        directions := getStrOr v "directions" "No directions provided"
        caution := getStrOpt v "caution"
        dietaryAttributes := []
        references := getStrOpt v "references" } := by
    simp only [safeParseProductExtraction, hparse, hobj, if_true]
  refine ⟨_, hsafe, rfl, rfl, rfl, rfl, rfl, ?_, ?_, ?_, fun _ _ => rfl, fun _ _ => rfl⟩
  · exact fun h => getStrOr_of_getStrOpt_none h
  · exact fun h => getStrOr_of_getStrOpt_none h
  · exact fun h => getStrOr_of_getStrOpt_none h

/-- C10 witness: the theorem applied to the empty object, which fails the
strict schema (no product name at all). -/
theorem C10_witness :
    parseProductExtraction (JSValue.obj []) = none ∧
    ∃ r, safeParseProductExtraction (JSValue.obj []) = some r ∧
      r.productName = "Unknown" ∧ r.productDescription = "No description available" ∧
      r.directions = "No directions provided" ∧ r.ingredients = [] ∧
      r.dietaryAttributes = [] := by
  refine ⟨by decide, ?_⟩
  obtain ⟨r, h1, h2, h3, h4, h5, h6, h7, h8, h9, _, _⟩ :=
    C10_salvage_placeholders (JSValue.obj []) (by decide) (by decide)
  exact ⟨r, h1, h7 (by decide), h8 (by decide), h9 (by decide), h2, h3⟩

/-! ## Claim C4: salvage preserves the supplement-facts substructure -/

/-- C4: when strict validation fails on a non-null object whose
`supplementFacts` is an object carrying a `nutrients` array, the salvage
parse keeps the supplement-facts block instead of discarding it: if the
sub-schema parses, its result is kept verbatim; otherwise each nutrient
entry that is an object with a string name is kept with its name, its
string amount (else null), its `dailyValuePercentAdult` (falling back to
the legacy `dailyValuePercent`), and its `dailyValuePercentChildren`, while
required-but-missing scalars get the permissive defaults servings "1",
servingsPerContainer "1", calories/protein null; the attempt is then
reported by the validation stage as a success carrying data, not as a
failure. -/
theorem C4_salvage_supplement_facts (v sf : JSValue) (ns : List JSValue)
    (hparse : parseProductExtraction v = none)
    (hobj : isObjectLike v = true)
    (hsf : getField v "supplementFacts" = some sf)
    (hsfobj : isObjectLike sf = true)
    (hns : getField sf "nutrients" = some (JSValue.arr ns)) :
    ∃ r, safeParseProductExtraction v = some r ∧
      (∀ normalize, (validationStage normalize v).success = true ∧
        (validationStage normalize v).data = some (normalize r)) ∧
      ∃ sfOut, r.supplementFacts = some sfOut ∧
        (∀ parsed, parseSupplementFacts sf = some parsed → sfOut = parsed) ∧
        (parseSupplementFacts sf = none →
          sfOut.servings = getStrOr sf "servings" "1" ∧
          sfOut.servingsPerContainer = getStrOr sf "servingsPerContainer" "1" ∧
          sfOut.calories = getStrOpt sf "calories" ∧
          sfOut.protein = getStrOpt sf "protein" ∧
          sfOut.nutrients = (ns.filter nutrientSalvageable).map salvageNutrient ∧
          (∀ (n : JSValue) (nm : String), n ∈ ns → isObjectLike n = true →
            getField n "name" = some (JSValue.str nm) →
            salvageNutrient n ∈ sfOut.nutrients ∧
            (salvageNutrient n).name = nm ∧
            (salvageNutrient n).amount = getStrOpt n "amount" ∧
            (salvageNutrient n).dailyValuePercentAdult =
              (match getStrOpt n "dailyValuePercentAdult" with
               | some s => some s
               | none => getStrOpt n "dailyValuePercent") ∧
            (salvageNutrient n).dailyValuePercentChildren =
              getStrOpt n "dailyValuePercentChildren")) := by
  cases hps : parseSupplementFacts sf with
  | some parsed =>
    have hsafe : safeParseProductExtraction v = some
        { productName := getStrOr v "productName" "Unknown"
          productSlogan := getStrOpt v "productSlogan"
          productDescription := getStrOr v "productDescription" "No description available"
          subbrand := getStrOpt v "subbrand"
          supplementFacts := some parsed
          ingredients := []
          directions := getStrOr v "directions" "No directions provided"
          caution := getStrOpt v "caution"
          dietaryAttributes := []
          references := getStrOpt v "references" } := by
      simp only [safeParseProductExtraction, hparse, hobj, hsf, hsfobj, hps, if_true]
    refine ⟨_, hsafe, ?_, parsed, rfl, ?_, ?_⟩
    · intro normalize
      constructor <;> simp only [validationStage, hparse, hsafe]
    · intro parsed' h
      cases h
      rfl
    · intro hnone
      exact absurd hnone (by simp)
  | none =>
    have hsafe : safeParseProductExtraction v = some
        { productName := getStrOr v "productName" "Unknown"
          productSlogan := getStrOpt v "productSlogan"
          productDescription := getStrOr v "productDescription" "No description available"
          subbrand := getStrOpt v "subbrand"
          supplementFacts := some
            { servings := getStrOr sf "servings" "1"
              servingsPerContainer := getStrOr sf "servingsPerContainer" "1"
              calories := getStrOpt sf "calories"
              protein := getStrOpt sf "protein"
              nutrients := (ns.filter nutrientSalvageable).map salvageNutrient }
          ingredients := []
          directions := getStrOr v "directions" "No directions provided"
          caution := getStrOpt v "caution"
          dietaryAttributes := []
          references := getStrOpt v "references" } := by
      simp only [safeParseProductExtraction, hparse, hobj, hsf, hsfobj, hps, hns, if_true]
    refine ⟨_, hsafe, ?_, _, rfl, ?_, ?_⟩
    · intro normalize
      constructor <;> simp only [validationStage, hparse, hsafe]
    · intro parsed h
      exact absurd h (by simp)
    · intro _
      refine ⟨rfl, rfl, rfl, rfl, rfl, ?_⟩
      intro n nm hn hno hname
      have hsalv : nutrientSalvageable n = true := by
        unfold nutrientSalvageable
        rw [hno, hname]
        rfl
      refine ⟨?_, ?_, rfl, rfl, rfl⟩
      · exact List.mem_map.mpr ⟨n, List.mem_filter.mpr ⟨hn, hsalv⟩, rfl⟩
      · show getStrOr n "name" "" = nm
        unfold getStrOr
        rw [hname]

/-- C4 witness: an object that fails the strict schema (no product name)
whose supplement facts lack `servings` but carry a nutrient with only a
legacy `dailyValuePercent`; the salvage keeps the nutrient, maps the legacy
field into `dailyValuePercentAdult`, and defaults the servings fields. -/
theorem C4_witness :
    parseProductExtraction (JSValue.obj [("supplementFacts", JSValue.obj [("nutrients",
      JSValue.arr [JSValue.obj [("name", JSValue.str "Iron"),
        ("dailyValuePercent", JSValue.str "50")]])])]) = none ∧
    ∃ r, safeParseProductExtraction (JSValue.obj [("supplementFacts", JSValue.obj [("nutrients",
        JSValue.arr [JSValue.obj [("name", JSValue.str "Iron"),
          ("dailyValuePercent", JSValue.str "50")]])])]) = some r ∧
      ∃ sfOut, r.supplementFacts = some sfOut ∧
        sfOut.servings = "1" ∧ sfOut.servingsPerContainer = "1" ∧
        sfOut.calories = none ∧ sfOut.protein = none ∧
        sfOut.nutrients = [⟨"Iron", none, some "50", none, none⟩] := by
  refine ⟨by decide, ?_⟩
  obtain ⟨r, hsafe, _, sfOut, hsfOut, _, himp⟩ :=
    C4_salvage_supplement_facts
      (JSValue.obj [("supplementFacts", JSValue.obj [("nutrients",
        JSValue.arr [JSValue.obj [("name", JSValue.str "Iron"),
          ("dailyValuePercent", JSValue.str "50")]])])])
      (JSValue.obj [("nutrients", JSValue.arr [JSValue.obj [("name", JSValue.str "Iron"),
        ("dailyValuePercent", JSValue.str "50")]])])
      [JSValue.obj [("name", JSValue.str "Iron"), ("dailyValuePercent", JSValue.str "50")]]
      (by decide) (by decide) rfl (by decide) rfl
  obtain ⟨h1, h2, h3, h4, h5, _⟩ := himp (by decide)
  refine ⟨r, hsafe, sfOut, hsfOut, ?_, ?_, ?_, ?_, ?_⟩
  · rw [h1]; decide
  · rw [h2]; decide
  · rw [h3]; decide
  · rw [h4]; decide
  · rw [h5]; decide

/-! ## Cascade helper lemmas -/

/-- Direct parse only succeeds with a validator-approved value. -/
theorem tryDirect_validator {jp : String → Option JSValue} {text : String}
    {validator : JSValue → Bool} {d : JSValue}
    (h : tryDirectParseWithValidator jp text validator = some d) : validator d = true := by
  unfold tryDirectParseWithValidator at h
  repeat' split at h
  all_goals first
    | (cases h; assumption)
    | exact Option.noConfusion h

/-- Balanced-brace extraction only succeeds with a validator-approved
value. -/
theorem tryBalanced_validator {jp : String → Option JSValue} {text : String}
    {validator : JSValue → Bool} {d : JSValue}
    (h : tryBalancedBracesWithValidator jp text validator = some d) : validator d = true := by
  unfold tryBalancedBracesWithValidator at h
  repeat' split at h
  all_goals first
    | (cases h; assumption)
    | exact Option.noConfusion h

/-- Code-block extraction only succeeds with a validator-approved value. -/
theorem tryCodeBlock_validator {jp : String → Option JSValue}
    {mb mg : String → Option String} {text : String}
    {validator : JSValue → Bool} {d : JSValue}
    (h : tryCodeBlockWithValidator jp mb mg text validator = some d) : validator d = true := by
  unfold tryCodeBlockWithValidator at h
  dsimp only at h
  repeat' split at h
  all_goals first
    | (cases h; assumption)
    | exact Option.noConfusion h

/-- Cleanup-and-retry only succeeds with a validator-approved value. -/
theorem tryCleanup_validator {jp : String → Option JSValue}
    {cl : String → String} {text : String}
    {validator : JSValue → Bool} {d : JSValue}
    (h : tryCleanupWithValidator jp cl text validator = some d) : validator d = true := by
  unfold tryCleanupWithValidator at h
  dsimp only at h
  split at h
  case _ data heq =>
    cases h
    exact tryDirect_validator heq
  case _ heq =>
    exact tryBalanced_validator h

/-- Structural repair only succeeds with a validator-approved value. -/
theorem tryRepair_validator {jp : String → Option JSValue} {text : String}
    {validator : JSValue → Bool} {d : JSValue}
    (h : tryRepairWithValidator jp text validator = some d) : validator d = true := by
  unfold tryRepairWithValidator at h
  repeat' split at h
  all_goals first
    | (cases h; assumption)
    | exact Option.noConfusion h

/-- Lenient JSON5 parsing only succeeds with a validator-approved value. -/
theorem tryJSON5_validator {j5 : String → Option JSValue} {text : String}
    {validator : JSValue → Bool} {d : JSValue}
    (h : tryJSON5WithValidator j5 text validator = some d) : validator d = true := by
  unfold tryJSON5WithValidator at h
  repeat' split at h
  all_goals first
    | (cases h; assumption)
    | exact Option.noConfusion h

/-- `firstSuccess` returns `some (d, s)` exactly when the list splits at a
first successful strategy named `s` carrying `d`, every earlier strategy
having failed. -/
theorem firstSuccess_eq_some_iff :
    ∀ (l : List (String × Option JSValue)) (d : JSValue) (s : String),
      firstSuccess l = some (d, s) ↔
        ∃ l1 l2, l = l1 ++ (s, some d) :: l2 ∧ ∀ p ∈ l1, p.2 = none := by
  intro l
  induction l with
  | nil =>
    intro d s
    constructor
    · intro h
      exact Option.noConfusion h
    · rintro ⟨l1, l2, heq, -⟩
      exact absurd heq.symm (List.append_ne_nil_of_right_ne_nil _ (by simp))
  | cons hd tl ih =>
    intro d s
    obtain ⟨name, r⟩ := hd
    cases r with
    | some data =>
      constructor
      · intro h
        have h' : some (data, name) = some (d, s) := h
        rw [Option.some.injEq, Prod.mk.injEq] at h'
        exact ⟨[], tl, by rw [List.nil_append, h'.1, h'.2], by simp⟩
      · rintro ⟨l1, l2, heq, hnone⟩
        cases l1 with
        | nil =>
          rw [List.nil_append] at heq
          rw [List.cons_eq_cons, Prod.mk.injEq] at heq
          obtain ⟨⟨h1, h2⟩, -⟩ := heq
          rw [Option.some.injEq] at h2
          show some (data, name) = some (d, s)
          rw [h1, h2]
        | cons q l1' =>
          rw [List.cons_append, List.cons_eq_cons] at heq
          have : (name, some data).2 = none := heq.1 ▸ hnone q (List.mem_cons_self q l1')
          exact absurd this (by simp)
    | none =>
      have hstep : firstSuccess ((name, none) :: tl) = firstSuccess tl := rfl
      rw [hstep, ih]
      constructor
      · rintro ⟨l1, l2, heq, hnone⟩
        refine ⟨(name, none) :: l1, l2, by rw [List.cons_append, heq], ?_⟩
        intro p hp
        rcases List.mem_cons.mp hp with rfl | hp'
        · rfl
        · exact hnone p hp'
      · rintro ⟨l1, l2, heq, hnone⟩
        cases l1 with
        | nil =>
          rw [List.nil_append, List.cons_eq_cons, Prod.mk.injEq] at heq
          exact absurd heq.1.2.symm (by simp)
        | cons q l1' =>
          rw [List.cons_append, List.cons_eq_cons] at heq
          exact ⟨l1', l2, heq.2, fun p hp => hnone p (List.mem_cons_of_mem q hp)⟩

/-- `firstSuccess` fails when every strategy fails. -/
theorem firstSuccess_eq_none (l : List (String × Option JSValue))
    (h : ∀ p ∈ l, p.2 = none) : firstSuccess l = none := by
  induction l with
  | nil => rfl
  | cons hd tl ih =>
    obtain ⟨name, r⟩ := hd
    have hr : r = none := h (name, r) (List.mem_cons_self _ _)
    subst hr
    exact ih (fun p hp => h p (List.mem_cons_of_mem _ hp))

/-! ## Claim C2: the six-strategy recovery cascade -/

/-- C2: for every input text and shape validator (and for every behaviour
of the host JSON/JSON5 parsers and regex services), the cascade consists of
exactly the six strategies directParse, balancedBraces, codeBlock, cleanup,
repair, json5 in that fixed order; a success always carries a
validator-approved value and reports the identity of the first strategy
that succeeded (every earlier strategy having failed); when the trimmed
input parses directly to a validator-approved value the cascade succeeds
with strategy `directParse`; and when all six strategies fail the cascade
reports overall failure. -/
theorem C2_recovery_cascade
    (jp j5 : String → Option JSValue) (mb mg : String → Option String)
    (cl : String → String) (text : String) (validator : JSValue → Bool) :
    ((cascadeStrategies jp j5 mb mg cl text validator).map Prod.fst =
      ["directParse", "balancedBraces", "codeBlock", "cleanup", "repair", "json5"]) ∧
    (∀ (d : JSValue) (s : String),
      extractJSONWithValidator jp j5 mb mg cl text validator = some (d, s) →
      validator d = true) ∧
    (∀ (d : JSValue) (s : String),
      extractJSONWithValidator jp j5 mb mg cl text validator = some (d, s) →
      ∃ l1 l2, cascadeStrategies jp j5 mb mg cl text validator = l1 ++ (s, some d) :: l2 ∧
        ∀ p ∈ l1, p.2 = none) ∧
    ((∀ p ∈ cascadeStrategies jp j5 mb mg cl text validator, p.2 = none) →
      extractJSONWithValidator jp j5 mb mg cl text validator = none) ∧
    (∀ v : JSValue, jp (jsTrim text) = some v → validator v = true →
      extractJSONWithValidator jp j5 mb mg cl text validator = some (v, "directParse")) := by
  refine ⟨rfl, ?_, ?_, ?_, ?_⟩
  · intro d s h
    obtain ⟨l1, l2, heq, -⟩ :=
      (firstSuccess_eq_some_iff (cascadeStrategies jp j5 mb mg cl text validator) d s).mp h
    have hmem : (s, some d) ∈ cascadeStrategies jp j5 mb mg cl text validator := by
      rw [heq]
      exact List.mem_append_right _ (List.mem_cons_self _ _)
    simp only [cascadeStrategies, List.mem_cons, List.not_mem_nil, or_false,
      Prod.mk.injEq] at hmem
    rcases hmem with ⟨-, h'⟩ | ⟨-, h'⟩ | ⟨-, h'⟩ | ⟨-, h'⟩ | ⟨-, h'⟩ | ⟨-, h'⟩
    · exact tryDirect_validator h'.symm
    · exact tryBalanced_validator h'.symm
    · exact tryCodeBlock_validator h'.symm
    · exact tryCleanup_validator h'.symm
    · exact tryRepair_validator h'.symm
    · exact tryJSON5_validator h'.symm
  · intro d s h
    exact (firstSuccess_eq_some_iff _ d s).mp h
  · intro h
    exact firstSuccess_eq_none _ h
  · intro v hparse hval
    have hd : tryDirectParseWithValidator jp text validator = some v := by
      unfold tryDirectParseWithValidator
      rw [hparse]
      dsimp only
      rw [hval]
      rfl
    show firstSuccess (cascadeStrategies jp j5 mb mg cl text validator) = some (v, "directParse")
    rw [show cascadeStrategies jp j5 mb mg cl text validator =
      ("directParse", tryDirectParseWithValidator jp text validator) ::
        [("balancedBraces", tryBalancedBracesWithValidator jp text validator),
         ("codeBlock", tryCodeBlockWithValidator jp mb mg text validator),
         ("cleanup", tryCleanupWithValidator jp cl text validator),
         ("repair", tryRepairWithValidator jp text validator),
         ("json5", tryJSON5WithValidator j5 text validator)] from rfl]
    rw [show firstSuccess (("directParse", tryDirectParseWithValidator jp text validator) ::
        [("balancedBraces", tryBalancedBracesWithValidator jp text validator),
         ("codeBlock", tryCodeBlockWithValidator jp mb mg text validator),
         ("cleanup", tryCleanupWithValidator jp cl text validator),
         ("repair", tryRepairWithValidator jp text validator),
         ("json5", tryJSON5WithValidator j5 text validator)]) =
      (match tryDirectParseWithValidator jp text validator with
       | some data => some (data, "directParse")
       | none => firstSuccess
          [("balancedBraces", tryBalancedBracesWithValidator jp text validator),
           ("codeBlock", tryCodeBlockWithValidator jp mb mg text validator),
           ("cleanup", tryCleanupWithValidator jp cl text validator),
           ("repair", tryRepairWithValidator jp text validator),
           ("json5", tryJSON5WithValidator j5 text validator)]) from rfl]
    rw [hd]

/-- C2 witness: the direct-parse conjunct of the cascade theorem applied at
a concrete host parser, the text " \x7b\x7d " (whitespace around an empty
object) and the always-true validator. -/
theorem C2_witness :
    extractJSONWithValidator
      (fun s => if s = "\x7b\x7d" then some (JSValue.obj []) else none)
      (fun _ => none) (fun _ => none) (fun _ => none) (fun s => s)
      " \x7b\x7d " (fun _ => true) = some (JSValue.obj [], "directParse") := by
  apply (C2_recovery_cascade
    (fun s => if s = "\x7b\x7d" then some (JSValue.obj []) else none)
    (fun _ => none) (fun _ => none) (fun _ => none) (fun s => s)
    " \x7b\x7d " (fun _ => true)).2.2.2.2 (JSValue.obj [])
  · show (if jsTrim " \x7b\x7d " = "\x7b\x7d" then some (JSValue.obj []) else none) =
      some (JSValue.obj [])
    rw [if_pos (by decide)]
  · rfl
